import Mathlib

/-!
# google-drive-migrator: folder resolution, folder traversal, token handling

A shallow embedding of `src/main.go` (`loadToken`, `removeAuth`, `auth`,
`findFolder`) and `src/migrate.go` (`migrateFolder`).

The remote store is an explicit state machine (`Service`): every `Do()` of the
program is one transition of it. Every function returns a `Run`: the
observable events it produced in order (requests issued, log lines written), the
state of the remote store afterwards, and what it returned. The three `for`
loops without a condition are recursions on an iteration budget; a run whose
budget is used up has `result = none`.
-/

namespace DriveMigrator

/-! ## Remote data: the response fields the program reads -/

/-- One entry of `File.Owners`. -/
structure User where
  DisplayName : String
  EmailAddress : String
deriving DecidableEq, Repr

/-- One entry of a listing page. -/
structure File where
  Id : String
  Name : String
  MimeType : String
  OwnedByMe : Bool
  Owners : List User
deriving DecidableEq, Repr

/-- One page of a file listing. -/
structure FileList where
  Files : List File
  NextPageToken : String
deriving DecidableEq, Repr

/-- One grant on a file; the fields are those named by the permission request. -/
structure Permission where
  Kind : String
  Id : String
  Type_ : String
  EmailAddress : String
  Domain : String
  Role : String
  AllowFileDiscovery : Bool
  DisplayName : String
  PhotoLink : String
  ExpirationTime : String
  TeamDrivePermissionDetails : List String
  Deleted : Bool
deriving DecidableEq, Repr

/-- One page of a permission listing. -/
structure PermissionList where
  Permissions : List Permission
  NextPageToken : String
deriving DecidableEq, Repr

/-! ## Requests -/

/-- The URL parameters of a `Files.List` call; a builder method sets one of them. -/
structure FilesListCall where
  fields : Option String
  q : Option String
  pageToken : Option String
deriving DecidableEq, Repr

/-- The URL parameters of a `Permissions.List(fileId)` call. -/
structure PermissionsListCall where
  fileId : String
  fields : Option String
  pageToken : Option String
deriving DecidableEq, Repr

/-- Models `s.Files.List()`: a call with no parameter set. -/
def FilesList : FilesListCall := ⟨none, none, none⟩

/-- Models `call.Fields(s)`. -/
def FilesListCall.Fields (c : FilesListCall) (s : String) : FilesListCall :=
  ⟨some s, c.q, c.pageToken⟩

/-- Models `call.Q(q)`. -/
def FilesListCall.Q (c : FilesListCall) (q : String) : FilesListCall :=
  ⟨c.fields, some q, c.pageToken⟩

/-- Models `call.PageToken(t)`. -/
def FilesListCall.PageToken (c : FilesListCall) (t : String) : FilesListCall :=
  ⟨c.fields, c.q, some t⟩

/-- Models `s.Permissions.List(fileId)`. -/
def PermissionsList (fileId : String) : PermissionsListCall := ⟨fileId, none, none⟩

/-- Models `call.Fields(s)`. -/
def PermissionsListCall.Fields (c : PermissionsListCall) (s : String) : PermissionsListCall :=
  ⟨c.fileId, some s, c.pageToken⟩

/-- Models `call.PageToken(t)`. -/
def PermissionsListCall.PageToken (c : PermissionsListCall) (t : String) :
    PermissionsListCall :=
  ⟨c.fileId, c.fields, some t⟩

/-! ## The remote store and what a run shows -/

/-- The remote store as seen through one `*drive.Service`: each `Do()` answers with a
page or an error and moves the store to its next state. -/
structure Service (σ : Type) where
  filesDo : FilesListCall → σ → Except String FileList × σ
  permissionsDo : PermissionsListCall → σ → Except String PermissionList × σ

/-- Modelled from the spec: the declaration of the type `Folder` is not under `src/`;
the fields are the three the source assigns or reads (`Service`, `ID`, `Mail`), the
spec's "owning Session, remote identifier, Account Identifier". -/
structure Folder (σ : Type) where
  Service : Service σ
  ID : String
  Mail : String

/-- What `findFolder` and `migrateFolder` do that can be seen from outside: the
requests they issue and the lines they log, by call site. -/
inductive Event where
  | filesDo (call : FilesListCall)
  | permissionsDo (call : PermissionsListCall)
  | logUnableToListFolders (err : String)
  | logSearchParent (parentSearch : String)
  | logMigrateFolder (name id : String)
  | logFile (name : String) (ownedByMe : Bool)
  | logOwner (owner : User)
  | logUnableToRetrievePermissions (err : String)
  | logSinglePermission (p : Permission)
  | logPermissionsForFile (permissions : PermissionList)
  | logFolderMigrated
deriving DecidableEq, Repr

/-- A run: its events in order, the store afterwards, and the returned value
(`none` when the iteration budget ran out before the function returned). -/
structure Run (σ α : Type) where
  trace : List Event
  state : σ
  result : Option α

/-- The run `r` preceded by the events `evs`. -/
def Run.after {σ α : Type} (evs : List Event) (r : Run σ α) : Run σ α :=
  ⟨evs ++ r.trace, r.state, r.result⟩

/-- The type tag the source compares with. -/
def folderMimeType : String := "application/vnd.google-apps.folder"

/-! ## `findFolder` (main.go 116-139) -/

/-- The inner `for _, item := range l.Files` of `findFolder`: the first entry that is
folder-typed and named exactly `name`. -/
def findFolderScan (name : String) : List File → Option File
  | [] => none
  | item :: rest =>
    if item.MimeType = folderMimeType ∧ item.Name = name then some item
    else findFolderScan name rest

/-- The `for` loop of `findFolder`, with the loop variables `listcall` and `nextpage`. -/
def findFolderLoop {σ : Type} (s : Service σ) (name : String) :
    Nat → FilesListCall → String → σ → Run σ (Except String (Folder σ))
  | 0, _, _, w => ⟨[], w, none⟩
  | fuel + 1, listcall, nextpage, w =>
    let listcall := if nextpage ≠ "" then listcall.PageToken nextpage else listcall
    let listcall := listcall.Q ("name='" ++ name ++ "'")
    match s.filesDo listcall w with
    | (.error err, w1) =>
      ⟨[.filesDo listcall, .logUnableToListFolders err], w1, some (.error err)⟩
    | (.ok l, w1) =>
      match findFolderScan name l.Files with
      | some item => ⟨[.filesDo listcall], w1, some (.ok ⟨s, item.Id, ""⟩)⟩
      | none =>
        if l.NextPageToken = "" then
          ⟨[.filesDo listcall], w1, some (.error ("Folder " ++ name ++ " not found"))⟩
        else
          (findFolderLoop s name fuel listcall l.NextPageToken w1).after [.filesDo listcall]

/-- Models `findFolder(s, name)`; `fuel` bounds the number of pages fetched. -/
def findFolder {σ : Type} (s : Service σ) (name : String) (fuel : Nat) (w : σ) :
    Run σ (Except String (Folder σ)) :=
  findFolderLoop s name fuel FilesList "" w

/-! ## `migrateFolder` (migrate.go 10-65) -/

/-- The field mask of the listing request (migrate.go 11). -/
def listingFields : String := "files(id,name,ownedByMe,owners)"

/-- The field mask of the permission request (migrate.go 37). -/
def permissionFields : String :=
  "permissions(kind,id,type,emailAddress,domain,role,allowFileDiscovery,displayName,photoLink,expirationTime,teamDrivePermissionDetails,deleted)"

/-- The permission loop of one file (migrate.go 38-55), with the loop variables
`permissionsCall` and `nextPermissionPage`. The `continue` of line 45 goes back to
the head of this loop with both variables unchanged. The Boolean tells whether the
loop was left (by the `break` of line 53) before the budget ran out. -/
def permissionsLoop {σ : Type} (s : Service σ) :
    Nat → PermissionsListCall → String → σ → List Event × σ × Bool
  | 0, _, _, w => ([], w, false)
  | fuel + 1, permissionsCall, nextPermissionPage, w =>
    let permissionsCall :=
      if nextPermissionPage ≠ "" then permissionsCall.PageToken nextPermissionPage
      else permissionsCall
    match s.permissionsDo permissionsCall w with
    | (.error err, w1) =>
      let r := permissionsLoop s fuel permissionsCall nextPermissionPage w1
      (.permissionsDo permissionsCall :: .logUnableToRetrievePermissions err :: r.1, r.2)
    | (.ok permissions, w1) =>
      let evs : List Event :=
        .permissionsDo permissionsCall ::
          (permissions.Permissions.map .logSinglePermission ++
            [.logPermissionsForFile permissions])
      if permissions.NextPageToken = "" then (evs, w1, true)
      else
        let r := permissionsLoop s fuel permissionsCall permissions.NextPageToken w1
        (evs ++ r.1, r.2)

/-- The loop over the entries of one page (migrate.go 25-56). -/
def itemsLoop {σ : Type} (s : Service σ) (fuel : Nat) :
    List File → σ → List Event × σ × Bool
  | [], w => ([], w, true)
  | item :: rest, w =>
    if item.MimeType = folderMimeType then
      let r := itemsLoop s fuel rest w
      (.logMigrateFolder item.Name item.Id :: r.1, r.2)
    else
      let head : List Event := .logFile item.Name item.OwnedByMe :: item.Owners.map .logOwner
      let p := permissionsLoop s fuel ((PermissionsList item.Id).Fields permissionFields) "" w
      if p.2.2 then
        let r := itemsLoop s fuel rest p.2.1
        (head ++ p.1 ++ r.1, r.2)
      else (head ++ p.1, p.2.1, false)

/-- The outer loop of `migrateFolder` (migrate.go 13-61), with the loop variables
`listcall` and `nextpage`. The result is the returned `error` (`none` is `nil`). -/
def migrateFolderLoop {σ : Type} (s : Service σ) (srcID : String) :
    Nat → Nat → FilesListCall → String → σ → Run σ (Option String)
  | 0, _, _, _, w => ⟨[], w, none⟩
  | fuel + 1, pfuel, listcall, nextpage, w =>
    let listcall := if nextpage ≠ "" then listcall.PageToken nextpage else listcall
    let parentSearch := "'" ++ srcID ++ "' in parents"
    let listcall := listcall.Q parentSearch
    match s.filesDo listcall w with
    | (.error err, w1) =>
      ⟨[.logSearchParent parentSearch, .filesDo listcall, .logUnableToListFolders err], w1,
        some (some err)⟩
    | (.ok l, w1) =>
      let r := itemsLoop s pfuel l.Files w1
      let evs : List Event := .logSearchParent parentSearch :: .filesDo listcall :: r.1
      if r.2.2 then
        if l.NextPageToken = "" then ⟨evs ++ [.logFolderMigrated], r.2.1, some none⟩
        else (migrateFolderLoop s srcID fuel pfuel listcall l.NextPageToken r.2.1).after evs
      else ⟨evs, r.2.1, none⟩

/-- Models `migrateFolder(src, dst)`; `fuel` bounds the number of listing pages
fetched and the number of permission requests issued for one file. -/
def migrateFolder {σ : Type} (src _dst : Folder σ) (fuel : Nat) (w : σ) :
    Run σ (Option String) :=
  migrateFolderLoop src.Service src.ID fuel fuel (FilesList.Fields listingFields) "" w

/-! ## Tokens: `loadToken`, `removeAuth`, `saveToken`, `auth` (main.go 29-114) -/

/-- The fields of an `oauth2.Token`. -/
structure Token where
  AccessToken : String
  TokenType : String
  RefreshToken : String
  Expiry : Nat
deriving DecidableEq, Repr

/-- What `auth` works against, as a state machine over the state `ω` of the local
directory, the clock, the operator at the console and the identity provider.
`readFile`, `writeFile` and `remove` are `ioutil.ReadFile`, `ioutil.WriteFile(_, _, 0400)`
and `os.Remove` (an error is `some`); `marshal` and `unmarshal` are the JSON codec on
`*oauth2.Token` (`none` is the nil pointer); `tokenValid` is the expiry test of
`Token.Valid` on a non-nil token; `exchange` is the consent step of lines 80-89 (the
operator is shown the URL, types a code, the code is exchanged); `probe` is the request
of line 101 made with the client built on the token. -/
structure Machine (ω : Type) where
  readFile : String → ω → Except String String
  writeFile : String → String → ω → Option String × ω
  remove : String → ω → Option String × ω
  marshal : Option Token → String
  unmarshal : String → Except String (Option Token)
  tokenValid : Token → ω → Bool
  exchange : ω → Except String Token × ω
  probe : Token → ω → Option String × ω

/-- What `auth` does that can be seen from outside, by call site. -/
inductive AuthEvent where
  | authCall (mail : String)
  | logUnableToLoadToken (err : String)
  | removeAuthOnLoad (mail : String) (err : Option String)
  | consentRequest (mail : String)
  | logFatal (err : String)
  | logToken (tok : Token)
  | saveToken (mail : String) (err : Option String)
  | logUnableToSaveToken (err : String)
  | probe (tok : Token) (err : Option String)
  | logUnableToValidate (mail : String) (err : String)
  | removeAuthOnProbe (mail : String) (err : Option String)
  | logUnableToDelete (err : String)
  | logAuthenticationSuccessful
deriving DecidableEq, Repr

/-- How a call of `auth` ends: it returns the client built on a token, or the process
ends in `log.Fatal` (line 91) or in the `panic` of line 106. -/
inductive AuthOutcome where
  | client (tok : Token)
  | fatal (err : String)
  | panicked (msg : String)
deriving DecidableEq, Repr

/-- A run of `auth`: its events in order, the machine afterwards, and how it ended
(`none` when the budget of nested calls ran out before it ended). -/
structure AuthRun (ω : Type) where
  trace : List AuthEvent
  state : ω
  result : Option AuthOutcome

/-- The run `r` preceded by the events `evs`. -/
def AuthRun.after {ω : Type} (evs : List AuthEvent) (r : AuthRun ω) : AuthRun ω :=
  ⟨evs ++ r.trace, r.state, r.result⟩

/-- Models `removeAuth(mail)` (main.go 53-55). -/
def removeAuth {ω : Type} (m : Machine ω) (mail : String) (w : ω) : Option String × ω :=
  m.remove (mail ++ ".json") w

/-- Models `saveToken(mail, token)` (main.go 29-32). -/
def saveToken {ω : Type} (m : Machine ω) (mail : String) (token : Token) (w : ω) :
    Option String × ω :=
  m.writeFile (mail ++ ".json") (m.marshal (some token)) w

/-- Models `Token.Valid` of the oauth2 library on a token pointer: false on nil. -/
def tokenIsValid {ω : Type} (m : Machine ω) (w : ω) : Option Token → Bool
  | none => false
  | some t => m.tokenValid t w

/-- Models `loadToken(mail)` (main.go 34-51): the events, the machine afterwards, and
the returned pair as `Except` (`.ok token` is `(token, nil)`, `.error e` is `(nil, e)`).
The error of `removeAuth` on line 47 is dropped, as in the source. -/
def loadToken {ω : Type} (m : Machine ω) (mail : String) (w : ω) :
    List AuthEvent × ω × Except String Token :=
  match m.readFile (mail ++ ".json") w with
  | .error err => ([.logUnableToLoadToken err], w, .error err)
  | .ok content =>
    match m.unmarshal content with
    | .error err => ([.logUnableToLoadToken err], w, .error err)
    | .ok token =>
      match token, tokenIsValid m w token with
      | some t, true => ([], w, .ok t)
      | _, _ =>
        ([.removeAuthOnLoad mail (removeAuth m mail w).1], (removeAuth m mail w).2,
          .error "Token invalid")

/-- Lines 58-97 of `auth`: the token to build the client on, loaded or obtained by
consent and saved; `.error e` is the `log.Fatal(e)` of line 91. -/
def acquireToken {ω : Type} (m : Machine ω) (mail : String) (w : ω) :
    List AuthEvent × ω × Except String Token :=
  match loadToken m mail w with
  | (evs, w1, .ok tok) => (evs, w1, .ok tok)
  | (evs, w1, .error _) =>
    match m.exchange w1 with
    | (.error err, w2) => (evs ++ [.consentRequest mail, .logFatal err], w2, .error err)
    | (.ok tok, w2) =>
      match saveToken m mail tok w2 with
      | (some err, w3) =>
        (evs ++ [.consentRequest mail, .logToken tok, .saveToken mail (some err),
          .logUnableToSaveToken err], w3, .ok tok)
      | (none, w3) =>
        (evs ++ [.consentRequest mail, .logToken tok, .saveToken mail none], w3, .ok tok)

/-- Models `auth(mail)` (main.go 57-114); `fuel` bounds the depth of the calls of
`auth` by itself on line 108. -/
def auth {ω : Type} (m : Machine ω) : Nat → String → ω → AuthRun ω
  | 0, _, w => ⟨[], w, none⟩
  | fuel + 1, mail, w =>
    match acquireToken m mail w with
    | (evs, w1, .error err) => ⟨.authCall mail :: evs, w1, some (.fatal err)⟩
    | (evs, w1, .ok tok) =>
      match m.probe tok w1 with
      | (none, w2) =>
        ⟨.authCall mail :: (evs ++ [.probe tok none, .logAuthenticationSuccessful]), w2,
          some (.client tok)⟩
      | (some err, w2) =>
        match removeAuth m mail w2 with
        | (some err2, w3) =>
          ⟨.authCall mail :: (evs ++ [.probe tok (some err), .logUnableToValidate mail err,
            .removeAuthOnProbe mail (some err2), .logUnableToDelete err2]), w3,
            some (.panicked "Unable to delete auth token")⟩
        | (none, w3) =>
          (auth m fuel mail w3).after
            (.authCall mail :: (evs ++ [.probe tok (some err), .logUnableToValidate mail err,
              .removeAuthOnProbe mail none]))

/-- The event is a call of `removeAuth` by `auth` itself (line 104). -/
def AuthEvent.isPurge : AuthEvent → Bool
  | .removeAuthOnProbe _ _ => true
  | _ => false

/-- The event is a call of `removeAuth`, from `auth` (line 104) or from `loadToken`
(line 47). -/
def AuthEvent.isRemoveAuth : AuthEvent → Bool
  | .removeAuthOnProbe _ _ => true
  | .removeAuthOnLoad _ _ => true
  | _ => false

/-- The event is a probe that passed (line 101 without error). -/
def AuthEvent.isPassedProbe : AuthEvent → Bool
  | .probe _ none => true
  | _ => false

/-- The event is a call of `removeAuth` by `auth` itself that failed. -/
def AuthEvent.isFailedPurge : AuthEvent → Bool
  | .removeAuthOnProbe _ (some _) => true
  | _ => false

/-- The event is the `log.Fatal` of a failed consent exchange. -/
def AuthEvent.isFailedExchange : AuthEvent → Bool
  | .logFatal _ => true
  | _ => false

/-- The event is the start of an authentication attempt: an entry into `auth`. -/
def AuthEvent.isAttempt : AuthEvent → Bool
  | .authCall _ => true
  | _ => false

/-! ### A local directory as a concrete machine -/

/-- The token files of the working directory: file name to content. -/
def Disk : Type := String → Option String

/-- A machine whose state is the working directory. A token file is created
read-only (mode 0400), so writing to a name that exists fails; removing a name that does
not exist fails. The codec, the validity test, the consent exchange and the probe are
given. -/
def diskMachine (marshal : Option Token → String)
    (unmarshal : String → Except String (Option Token)) (tokenValid : Token → Bool)
    (exchange : Except String Token) (probe : Token → Option String) : Machine Disk :=
  ⟨fun name d =>
      match d name with
      | some content => .ok content
      | none => .error ("open " ++ name ++ ": no such file or directory"),
    fun name data d =>
      match d name with
      | some _ => (some ("open " ++ name ++ ": permission denied"), d)
      | none => (none, fun n => if n = name then some data else d n),
    fun name d =>
      match d name with
      | some _ => (none, fun n => if n = name then none else d n)
      | none => (some ("remove " ++ name ++ ": no such file or directory"), d),
    marshal, unmarshal, fun t _ => tokenValid t, fun d => (exchange, d),
    fun t d => (probe t, d)⟩

/-- A codec for the concrete runs: a token is stored as its access token. -/
def plainMarshal : Option Token → String
  | none => "null"
  | some t => t.AccessToken

/-- The inverse of `plainMarshal`. -/
def plainUnmarshal (content : String) : Except String (Option Token) :=
  if content = "null" then .ok none
  else if content = "" then .error "unexpected end of JSON input"
  else .ok (some ⟨content, "Bearer", "", 0⟩)

/-- A validity test for the concrete runs: the token `expired` is not valid. -/
def plainValid (t : Token) : Bool := t.AccessToken ≠ "" && t.AccessToken ≠ "expired"

/-- A machine on which every consent exchange issues the token `fresh` and every probe
fails. -/
def rejectingMachine : Machine Disk :=
  diskMachine plainMarshal plainUnmarshal plainValid (.ok ⟨"fresh", "Bearer", "", 0⟩)
    (fun _ => some "401 Unauthorized")

/-- A directory that holds a token for `a@x.com` that passes the validity test. -/
def staleDisk : Disk := fun n => if n = "a@x.com.json" then some "stale" else none

/-- A directory that holds a token for `a@x.com` that does not pass the validity test. -/
def expiredDisk : Disk := fun n => if n = "a@x.com.json" then some "expired" else none

/-! ## Remote stores that answer by request, and paginated result sets -/

/-- A remote store without state of its own: the answer depends on the request only
(a test double keyed by the request's parameters). -/
def statelessService (files : FilesListCall → Except String FileList)
    (perms : PermissionsListCall → Except String PermissionList) : Service Unit :=
  ⟨fun c w => (files c, w), fun c w => (perms c, w)⟩

/-- Starting from the cursor `tok`, `fetch` answers with the pages `ps` in order:
each is returned for the cursor of the page before it and carries a non-empty cursor;
`last` is the cursor the page after them is asked for. -/
def Follows {P : Type} (fetch : Option String → Except String P) (next : P → String) :
    Option String → List P → Option String → Prop
  | tok, [], last => tok = last
  | tok, p :: ps, last =>
    fetch tok = .ok p ∧ next p ≠ "" ∧ Follows fetch next (some (next p)) ps last

deriving instance DecidableEq for Except

instance decidableFollows {P : Type} [DecidableEq P] (fetch : Option String → Except String P)
    (next : P → String) :
    ∀ (tok : Option String) (ps : List P) (last : Option String),
      Decidable (Follows fetch next tok ps last)
  | tok, [], last => inferInstanceAs (Decidable (tok = last))
  | tok, p :: ps, last =>
    have := decidableFollows fetch next (some (next p)) ps last
    inferInstanceAs (Decidable (fetch tok = .ok p ∧ next p ≠ "" ∧
      Follows fetch next (some (next p)) ps last))

/-- The cursors of the requests that obtain the pages `ps`, the first being `tok`. -/
def requestTokens {P : Type} (next : P → String) : Option String → List P → List (Option String)
  | _, [] => []
  | tok, p :: ps => tok :: requestTokens next (some (next p)) ps

/-- The request `findFolder` issues for the cursor `tok`. -/
def findCall (name : String) (tok : Option String) : FilesListCall :=
  ⟨none, some ("name='" ++ name ++ "'"), tok⟩

/-- The entry is folder-typed and named exactly `name`. -/
def Matches (name : String) (item : File) : Prop :=
  item.MimeType = folderMimeType ∧ item.Name = name

instance (name : String) (item : File) : Decidable (Matches name item) :=
  inferInstanceAs (Decidable (item.MimeType = folderMimeType ∧ item.Name = name))

/-- The first entry, in listing order over the pages, that `findFolder` accepts. -/
def firstMatch (name : String) (pages : List FileList) : Option File :=
  findFolderScan name (pages.flatMap FileList.Files)

/-- The error `findFolder` returns after the last page. -/
def notFound (name : String) : String := "Folder " ++ name ++ " not found"

/-! ### A three-page search result used as a concrete input -/

/-- Page 1: a file named X and a folder named Y. -/
def searchPage1 : FileList :=
  ⟨[⟨"f0", "X", "text/plain", true, []⟩, ⟨"d0", "Y", folderMimeType, true, []⟩], "t2"⟩

/-- Page 2: two folders named X. -/
def searchPage2 : FileList :=
  ⟨[⟨"a", "X", folderMimeType, true, []⟩, ⟨"b", "X", folderMimeType, false, []⟩], "t3"⟩

/-- Page 3: one more folder named X, and the end of the result set. -/
def searchPage3 : FileList :=
  ⟨[⟨"c", "X", folderMimeType, true, []⟩], ""⟩

/-- The store that serves the three pages by cursor, whatever the query. -/
def searchFiles (c : FilesListCall) : Except String FileList :=
  if c.pageToken = none then .ok searchPage1
  else if c.pageToken = some "t2" then .ok searchPage2
  else if c.pageToken = some "t3" then .ok searchPage3
  else .error "invalid page token"

/-- A store on which no permission listing is scripted. -/
def noPerms (_ : PermissionsListCall) : Except String PermissionList :=
  .error "no permission listing"

/-- Page 1 of a search result with unnamed entries: a file with the empty name and a
folder named Y. -/
def unnamedPage1 : FileList :=
  ⟨[⟨"f9", "", "text/plain", true, []⟩, ⟨"d9", "Y", folderMimeType, true, []⟩], "u2"⟩

/-- Page 2: a folder named Z, then two folders with the empty name; the end of the
result set. -/
def unnamedPage2 : FileList :=
  ⟨[⟨"d0", "Z", folderMimeType, true, []⟩, ⟨"d1", "", folderMimeType, true, []⟩,
    ⟨"d2", "", folderMimeType, false, []⟩], ""⟩

/-- The store that serves these two pages by cursor, whatever the query. -/
def unnamedSearchFiles (c : FilesListCall) : Except String FileList :=
  if c.pageToken = none then .ok unnamedPage1
  else if c.pageToken = some "u2" then .ok unnamedPage2
  else .error "invalid page token"

/-- A one-page search result whose only entry is a folder with the empty name. -/
def unnamedFolderFiles (_ : FilesListCall) : Except String FileList :=
  .ok ⟨[⟨"d1", "", folderMimeType, true, []⟩], ""⟩

/-! ### Result sets of `migrateFolder` -/

/-- Starting from the cursor `tok`, `fetch` answers with exactly the pages `ps`: each is
returned for the cursor of the page before it, every page but the last carries a
non-empty cursor, and the last carries the empty one. -/
def Drains {P : Type} (fetch : Option String → Except String P) (next : P → String) :
    Option String → List P → Prop
  | _, [] => False
  | tok, [p] => fetch tok = .ok p ∧ next p = ""
  | tok, p :: q :: ps =>
    fetch tok = .ok p ∧ next p ≠ "" ∧ Drains fetch next (some (next p)) (q :: ps)

instance decidableDrains {P : Type} [DecidableEq P] (fetch : Option String → Except String P)
    (next : P → String) :
    ∀ (tok : Option String) (ps : List P), Decidable (Drains fetch next tok ps)
  | _, [] => inferInstanceAs (Decidable False)
  | tok, [p] => inferInstanceAs (Decidable (fetch tok = .ok p ∧ next p = ""))
  | tok, p :: q :: ps =>
    have := decidableDrains fetch next (some (next p)) (q :: ps)
    inferInstanceAs (Decidable (fetch tok = .ok p ∧ next p ≠ "" ∧
      Drains fetch next (some (next p)) (q :: ps)))

/-- The listing request `migrateFolder` issues for the cursor `tok`. -/
def listCall (srcID : String) (tok : Option String) : FilesListCall :=
  ⟨some listingFields, some ("'" ++ srcID ++ "' in parents"), tok⟩

/-- The permission request `migrateFolder` issues for the file `id` and the cursor `tok`. -/
def permCall (id : String) (tok : Option String) : PermissionsListCall :=
  ⟨id, some permissionFields, tok⟩

/-- The listing request of an event, when it is one. -/
def Event.filesCall? : Event → Option FilesListCall
  | .filesDo c => some c
  | _ => none

/-- The permission request of an event, when it is one. -/
def Event.permissionsCall? : Event → Option PermissionsListCall
  | .permissionsDo c => some c
  | _ => none

/-- The name of the entry an event visits: the loop body logs every entry once, a
folder by the line of migrate.go 27 and any other entry by the line of migrate.go 31. -/
def Event.visited? : Event → Option String
  | .logMigrateFolder name _ => some name
  | .logFile name _ => some name
  | _ => none

/-- The ownership report of an event (migrate.go 31), when it is one. -/
def Event.fileReport? : Event → Option (String × Bool)
  | .logFile name ownedByMe => some (name, ownedByMe)
  | _ => none

/-- The permission page an event reports (migrate.go 50), when it does. -/
def Event.permissionsReport? : Event → Option PermissionList
  | .logPermissionsForFile l => some l
  | _ => none

/-- The events of draining the permission pages `ps` of the file `id`, the first
request carrying the cursor `tok`. -/
def permissionEvents (id : String) : Option String → List PermissionList → List Event
  | _, [] => []
  | tok, p :: ps =>
    (.permissionsDo (permCall id tok) ::
      (p.Permissions.map .logSinglePermission ++ [.logPermissionsForFile p])) ++
      permissionEvents id (some p.NextPageToken) ps

/-- The events of one listed entry, `pp` giving the permission pages of a file id. -/
def itemEvents (pp : String → List PermissionList) (item : File) : List Event :=
  if item.MimeType = folderMimeType then [.logMigrateFolder item.Name item.Id]
  else
    (.logFile item.Name item.OwnedByMe :: item.Owners.map .logOwner) ++
      permissionEvents item.Id none (pp item.Id)

/-- The events of the listing pages `ps`, the first request carrying the cursor `tok`. -/
def pageEvents (srcID : String) (pp : String → List PermissionList) :
    Option String → List FileList → List Event
  | _, [] => []
  | tok, p :: ps =>
    (.logSearchParent ("'" ++ srcID ++ "' in parents") :: .filesDo (listCall srcID tok) ::
      p.Files.flatMap (itemEvents pp)) ++ pageEvents srcID pp (some p.NextPageToken) ps

/-- The listed entries that are not folder-typed, in listing order. -/
def nonFolders (pages : List FileList) : List File :=
  (pages.flatMap FileList.Files).filter (fun it => it.MimeType ≠ folderMimeType)

/-! ### The scenario of the specification as a concrete input -/

/-- Page 1 of the scenario: the file `f1`, cursor `p2`. -/
def scenarioPage1 : FileList :=
  ⟨[⟨"f1", "report.pdf", "file", false, [⟨"", "a@x.com"⟩]⟩], "p2"⟩

/-- Page 2 of the scenario: the folder `f2`, no cursor. -/
def scenarioPage2 : FileList :=
  ⟨[⟨"f2", "Archive", folderMimeType, false, []⟩], ""⟩

/-- The listing of the scenario, served by cursor. -/
def scenarioFiles (c : FilesListCall) : Except String FileList :=
  if c.pageToken = none then .ok scenarioPage1
  else if c.pageToken = some "p2" then .ok scenarioPage2
  else .error "invalid page token"

/-- The one permission of `f1`. -/
def scenarioPermission : Permission :=
  ⟨"drive#permission", "u1", "user", "a@x.com", "", "owner", false, "A", "", "", [], false⟩

/-- The permission listing of the scenario: one page for `f1`. -/
def scenarioPerms (c : PermissionsListCall) : Except String PermissionList :=
  if c.fileId = "f1" ∧ c.pageToken = none then .ok ⟨[scenarioPermission], ""⟩
  else .error "file not found"

/-- The permission pages of the scenario by file id. -/
def scenarioPermissionPages (id : String) : List PermissionList :=
  if id = "f1" then [⟨[scenarioPermission], ""⟩] else []

/-- The listing of the scenario with a failure in place of page 2. -/
def failingFiles (c : FilesListCall) : Except String FileList :=
  if c.pageToken = none then .ok scenarioPage1 else .error "backend error"

/-- A destination folder; `migrateFolder` does not read it. -/
def scenarioDst : Folder Unit := ⟨statelessService scenarioFiles scenarioPerms, "dst", "b@x.com"⟩

/-! ### A folder with the files A, B, C, the permission listing of B failing on page 2 -/

/-- The one listing page: three files. -/
def isolationPage : FileList :=
  ⟨[⟨"A", "a.txt", "text/plain", true, []⟩, ⟨"B", "b.txt", "text/plain", true, []⟩,
    ⟨"C", "c.txt", "text/plain", true, []⟩], ""⟩

/-- The listing: the one page. -/
def isolationFiles (c : FilesListCall) : Except String FileList :=
  if c.pageToken = none then .ok isolationPage else .error "invalid page token"

/-- A permission with the id `id`. -/
def permissionOf (id : String) : Permission :=
  ⟨"drive#permission", id, "user", "", "", "reader", false, "", "", "", [], false⟩

/-- The permission listings: one page for A and for C; for B a first page with the
cursor `b2`, and an error whenever the page for `b2` is requested. -/
def isolationPerms (c : PermissionsListCall) : Except String PermissionList :=
  if c.fileId = "A" ∧ c.pageToken = none then .ok ⟨[permissionOf "pa"], ""⟩
  else if c.fileId = "B" ∧ c.pageToken = none then .ok ⟨[permissionOf "pb1"], "b2"⟩
  else if c.fileId = "B" ∧ c.pageToken = some "b2" then .error "backend error"
  else if c.fileId = "C" ∧ c.pageToken = none then .ok ⟨[permissionOf "pc"], ""⟩
  else .error "file not found"

/-- The source folder on that store. -/
def isolationSrc : Folder Unit := ⟨statelessService isolationFiles isolationPerms, "src", "a@x.com"⟩

/-- The same store, except that the page for `b2` fails on its first request only: the
state counts the requests for that page seen so far. -/
def flakyService : Service Nat :=
  ⟨fun c n => (isolationFiles c, n),
    fun c n =>
      if c.fileId = "B" ∧ c.pageToken = some "b2" then
        (if n = 0 then .error "backend error" else .ok ⟨[permissionOf "pb2"], ""⟩, n + 1)
      else (isolationPerms c, n)⟩

/-- The source folder on the store that fails once. -/
def flakySrc : Folder Nat := ⟨flakyService, "src", "a@x.com"⟩

/-- The events of `n` rounds of the permission loop on a request that fails with `e`:
the request, the log line of line 44, and again. -/
def stuckEvents (c : PermissionsListCall) (e : String) : Nat → List Event
  | 0 => []
  | n + 1 => .permissionsDo c :: .logUnableToRetrievePermissions e :: stuckEvents c e n

/-! ### Field masks -/

/-- One item of a field mask: a field name and the sub-fields selected in brackets
after it (none: the field as a whole). -/
structure FieldSel where
  name : String
  sub : List String
deriving DecidableEq, Repr

/-- Cuts a mask at the commas that are outside brackets. -/
def splitTop : List Char → Nat → List Char → List (List Char)
  | [], _, cur => [cur.reverse]
  | c :: cs, depth, cur =>
    if c = ',' ∧ depth = 0 then cur.reverse :: splitTop cs 0 []
    else if c = '(' then splitTop cs (depth + 1) (c :: cur)
    else if c = ')' then splitTop cs (depth - 1) (c :: cur)
    else splitTop cs depth (c :: cur)

/-- Reads one item `name` or `name(sub,...)`. -/
def parseItem (cs : List Char) : FieldSel :=
  match cs.dropWhile (fun c => c ≠ '(') with
  | [] => ⟨String.mk cs, []⟩
  | _ :: inner =>
    ⟨String.mk (cs.takeWhile (fun c => c ≠ '(')),
      (splitTop inner.dropLast 0 []).map
        (fun s => String.mk (s.takeWhile (fun c => c ≠ '(')))⟩

/-- Reads a field mask as the request sends it. -/
def parseMask (mask : String) : List FieldSel :=
  (splitTop mask.data 0 []).map parseItem

/-- The mask names the response field at `path`: a page-level field `[f]`, or the
field `[f, g]` of the entries of `f`. -/
def maskCovers (mask : String) (path : List String) : Bool :=
  match path with
  | [top] => (parseMask mask).any (fun s => s.name = top)
  | [top, sub] => (parseMask mask).any (fun s => s.name = top ∧ (s.sub = [] ∨ sub ∈ s.sub))
  | _ => false

/-- The listing-response fields `migrateFolder` reads: `l.Files` (line 25),
`item.MimeType` (26), `item.Name` and `item.Id` (27), `item.OwnedByMe` (31),
`item.Owners` (32), `l.NextPageToken` (57). -/
def listingFieldsRead : List (List String) :=
  [["files"], ["files", "mimeType"], ["files", "name"], ["files", "id"],
    ["files", "ownedByMe"], ["files", "owners"], ["nextPageToken"]]

/-- The permission-response fields `migrateFolder` reads: `permissions.Permissions`
(line 47) and `permissions.NextPageToken` (51). -/
def permissionFieldsRead : List (List String) :=
  [["permissions"], ["nextPageToken"]]

/-- A listing entry as a store that returns only the masked fields sends it: a field the
mask does not name is absent, so the program reads its zero value. -/
def maskFile (mask : String) (f : File) : File :=
  ⟨if maskCovers mask ["files", "id"] then f.Id else "",
    if maskCovers mask ["files", "name"] then f.Name else "",
    if maskCovers mask ["files", "mimeType"] then f.MimeType else "",
    if maskCovers mask ["files", "ownedByMe"] then f.OwnedByMe else false,
    if maskCovers mask ["files", "owners"] then f.Owners else []⟩

/-- A listing page under a mask. -/
def maskFileList (mask : String) (l : FileList) : FileList :=
  ⟨if maskCovers mask ["files"] then l.Files.map (maskFile mask) else [],
    if maskCovers mask ["nextPageToken"] then l.NextPageToken else ""⟩

/-- A permission page under a mask; the mask of the program names every field of a
permission, so only the page-level fields are dropped or kept here. -/
def maskPermissionList (mask : String) (l : PermissionList) : PermissionList :=
  ⟨if maskCovers mask ["permissions"] then l.Permissions else [],
    if maskCovers mask ["nextPageToken"] then l.NextPageToken else ""⟩

/-- The store `s` behind an interface that returns only the fields the request's mask
names (a request without a mask is answered as `s` answers it). -/
def maskedService {σ : Type} (s : Service σ) : Service σ :=
  ⟨fun c w =>
      match c.fields with
      | none => s.filesDo c w
      | some m => ((s.filesDo c w).1.map (maskFileList m), (s.filesDo c w).2),
    fun c w =>
      match c.fields with
      | none => s.permissionsDo c w
      | some m => ((s.permissionsDo c w).1.map (maskPermissionList m), (s.permissionsDo c w).2)⟩

/-- A one-page listing that holds the folder `f2` only. -/
def folderOnlyFiles (_ : FilesListCall) : Except String FileList := .ok scenarioPage2

/-- A store on which every permission listing is one empty page. -/
def emptyPerms (_ : PermissionsListCall) : Except String PermissionList := .ok ⟨[], ""⟩

/-! # Theorems -/

set_option maxRecDepth 20000

section Auth

theorem loadToken_invalid {ω : Type} (m : Machine ω) (mail content : String)
    (token : Option Token) (w : ω)
    (hread : m.readFile (mail ++ ".json") w = .ok content)
    (hparse : m.unmarshal content = .ok token) (hinvalid : tokenIsValid m w token = false) :
    loadToken m mail w =
      ([.removeAuthOnLoad mail (m.remove (mail ++ ".json") w).1],
        (m.remove (mail ++ ".json") w).2, .error "Token invalid") := by
  unfold loadToken
  simp only [hread, hparse]
  cases token with
  | none => rfl
  | some t => simp only [hinvalid, removeAuth]

theorem loadToken_valid {ω : Type} (m : Machine ω) (mail content : String)
    (t : Token) (w : ω)
    (hread : m.readFile (mail ++ ".json") w = .ok content)
    (hparse : m.unmarshal content = .ok (some t))
    (hvalid : tokenIsValid m w (some t) = true) :
    loadToken m mail w = ([], w, .ok t) := by
  unfold loadToken
  simp only [hread, hparse, hvalid]

/-- After a failed load, `auth` goes to the consent step before anything else. -/
theorem auth_consent_after_failed_load {ω : Type} (m : Machine ω) (mail : String) (w w1 : ω)
    (evs : List AuthEvent) (e : String) (fuel : Nat)
    (hload : loadToken m mail w = (evs, w1, .error e)) :
    ∃ rest, (auth m (fuel + 1) mail w).trace =
      .authCall mail :: (evs ++ .consentRequest mail :: rest) := by
  unfold auth acquireToken
  rw [hload]
  simp only []
  rcases hx : m.exchange w1 with ⟨_ | tok, w2⟩
  · exact ⟨_, by simp only [List.append_assoc, List.cons_append, List.nil_append]; rfl⟩
  · simp only []
    rcases hs : saveToken m mail tok w2 with ⟨_ | err, w3⟩
    · simp only []
      rcases hp : m.probe tok w3 with ⟨_ | perr, w4⟩
      · exact ⟨_, by simp only [List.append_assoc, List.cons_append, List.nil_append]; rfl⟩
      · simp only []
        rcases hr : removeAuth m mail w4 with ⟨_ | rerr, w5⟩
        · exact ⟨_, by simp only [AuthRun.after, List.append_assoc, List.cons_append, List.nil_append]; rfl⟩
        · exact ⟨_, by simp only [List.append_assoc, List.cons_append, List.nil_append]; rfl⟩
    · simp only []
      rcases hp : m.probe tok w3 with ⟨_ | perr, w4⟩
      · exact ⟨_, by simp only [List.append_assoc, List.cons_append, List.nil_append]; rfl⟩
      · simp only []
        rcases hr : removeAuth m mail w4 with ⟨_ | rerr, w5⟩
        · exact ⟨_, by simp only [AuthRun.after, List.append_assoc, List.cons_append, List.nil_append]; rfl⟩
        · exact ⟨_, by simp only [List.append_assoc, List.cons_append, List.nil_append]; rfl⟩

theorem loadToken_events_counts {ω : Type} (m : Machine ω) (mail : String) (w : ω) :
    (loadToken m mail w).1.countP AuthEvent.isPurge = 0 ∧
      (loadToken m mail w).1.countP AuthEvent.isAttempt = 0 ∧
      ∀ err, AuthEvent.logFatal err ∉ (loadToken m mail w).1 := by
  unfold loadToken
  split
  · simp [AuthEvent.isPurge, AuthEvent.isAttempt]
  · split
    · simp [AuthEvent.isPurge, AuthEvent.isAttempt]
    · split <;> simp [AuthEvent.isPurge, AuthEvent.isAttempt]

theorem acquireToken_events {ω : Type} (m : Machine ω) (mail : String) (w : ω) :
    (acquireToken m mail w).1.countP AuthEvent.isPurge = 0 ∧
      (acquireToken m mail w).1.countP AuthEvent.isAttempt = 0 ∧
      ∀ err, (acquireToken m mail w).2.2 = .error err →
        AuthEvent.logFatal err ∈ (acquireToken m mail w).1 := by
  obtain ⟨h1, h2, _⟩ := loadToken_events_counts m mail w
  unfold acquireToken
  rcases hl : loadToken m mail w with ⟨evs, w1, e | tok⟩
  · rw [hl] at h1 h2
    simp only [] at h1 h2 ⊢
    rcases hx : m.exchange w1 with ⟨xe | tok, w2⟩
    · simp [List.countP_append, h1, h2, AuthEvent.isPurge, AuthEvent.isAttempt]
    · simp only []
      rcases hs : saveToken m mail tok w2 with ⟨_ | err, w3⟩ <;>
        simp [List.countP_append, h1, h2, AuthEvent.isPurge, AuthEvent.isAttempt]
  · rw [hl] at h1 h2
    simp only [] at h1 h2 ⊢
    simp [h1, h2]

/-- C8 (load-time purge): when the file `<mail>.json` reads and parses, and the token
in it is not valid, `loadToken` calls `removeAuth(mail)`, leaves the machine as the
removal of that file leaves it, and returns no token with the error "Token invalid";
`auth` then goes to the consent step. When the token is valid, `loadToken` returns it
and leaves the machine as it was. On a working directory (`diskMachine`) the file is
gone afterwards and every other file is as before. -/
theorem loadToken_load_time_purge {ω : Type} (m : Machine ω) (mail content : String)
    (token : Option Token) (w : ω)
    (hread : m.readFile (mail ++ ".json") w = .ok content)
    (hparse : m.unmarshal content = .ok token) :
    (tokenIsValid m w token = false →
      loadToken m mail w =
          ([.removeAuthOnLoad mail (m.remove (mail ++ ".json") w).1],
            (m.remove (mail ++ ".json") w).2, .error "Token invalid") ∧
        ∀ fuel, ∃ rest, (auth m (fuel + 1) mail w).trace =
          .authCall mail :: .removeAuthOnLoad mail (m.remove (mail ++ ".json") w).1 ::
            .consentRequest mail :: rest) ∧
    (tokenIsValid m w token = true →
      ∃ t, token = some t ∧ loadToken m mail w = ([], w, .ok t)) ∧
    (∀ (marshal : Option Token → String) (unmarshal : String → Except String (Option Token))
        (tokenValid : Token → Bool) (exchange : Except String Token)
        (probe : Token → Option String) (d : Disk) (c : String) (tk : Option Token),
      d (mail ++ ".json") = some c → unmarshal c = .ok tk →
      tokenIsValid (diskMachine marshal unmarshal tokenValid exchange probe) d tk = false →
      (loadToken (diskMachine marshal unmarshal tokenValid exchange probe) mail d).2.1
          (mail ++ ".json") = none ∧
        ∀ n, n ≠ mail ++ ".json" →
          (loadToken (diskMachine marshal unmarshal tokenValid exchange probe) mail d).2.1 n =
            d n) := by
  refine ⟨fun hinv => ?_, fun hval => ?_, ?_⟩
  · have hl := loadToken_invalid m mail content token w hread hparse hinv
    refine ⟨hl, fun fuel => ?_⟩
    obtain ⟨rest, hrest⟩ := auth_consent_after_failed_load m mail w _ _ _ fuel hl
    exact ⟨rest, by simpa using hrest⟩
  · cases token with
    | none => simp [tokenIsValid] at hval
    | some t => exact ⟨t, rfl, loadToken_valid m mail content t w hread hparse hval⟩
  · intro marshal unmarshal tokenValid exchange probe d c tk hd hu hinv
    have hl := loadToken_invalid (diskMachine marshal unmarshal tokenValid exchange probe) mail
      c tk d (by simp [diskMachine, hd]) hu hinv
    rw [hl]
    simp only [diskMachine, hd]
    exact ⟨by simp, fun n hn => by simp [hn]⟩

theorem loadToken_load_time_purge_witness :
    loadToken rejectingMachine "a@x.com" expiredDisk =
      ([.removeAuthOnLoad "a@x.com" (rejectingMachine.remove ("a@x.com" ++ ".json")
          expiredDisk).1],
        (rejectingMachine.remove ("a@x.com" ++ ".json") expiredDisk).2,
        .error "Token invalid") :=
  ((loadToken_load_time_purge rejectingMachine "a@x.com" "expired"
    (some ⟨"expired", "Bearer", "", 0⟩) expiredDisk (by decide) (by decide)).1
      (by decide)).1

/-- C2, as the claim states it, fails: the directory holds a token for `a@x.com` that
loads and then fails the probe; every consent exchange issues a token, every probe fails
and every `removeAuth` succeeds. Within three nested calls `auth` has already called
`removeAuth` three times and started three authentication attempts, and it has neither
returned nor ended the process. -/
theorem auth_self_heal_counterexample :
    (auth rejectingMachine 3 "a@x.com" staleDisk).trace =
      [.authCall "a@x.com",
        .probe ⟨"stale", "Bearer", "", 0⟩ (some "401 Unauthorized"),
        .logUnableToValidate "a@x.com" "401 Unauthorized",
        .removeAuthOnProbe "a@x.com" none,
        .authCall "a@x.com",
        .logUnableToLoadToken "open a@x.com.json: no such file or directory",
        .consentRequest "a@x.com", .logToken ⟨"fresh", "Bearer", "", 0⟩,
        .saveToken "a@x.com" none,
        .probe ⟨"fresh", "Bearer", "", 0⟩ (some "401 Unauthorized"),
        .logUnableToValidate "a@x.com" "401 Unauthorized",
        .removeAuthOnProbe "a@x.com" none,
        .authCall "a@x.com",
        .logUnableToLoadToken "open a@x.com.json: no such file or directory",
        .consentRequest "a@x.com", .logToken ⟨"fresh", "Bearer", "", 0⟩,
        .saveToken "a@x.com" none,
        .probe ⟨"fresh", "Bearer", "", 0⟩ (some "401 Unauthorized"),
        .logUnableToValidate "a@x.com" "401 Unauthorized",
        .removeAuthOnProbe "a@x.com" none] ∧
      (auth rejectingMachine 3 "a@x.com" staleDisk).trace.countP AuthEvent.isRemoveAuth = 3 ∧
      (auth rejectingMachine 3 "a@x.com" staleDisk).trace.countP AuthEvent.isAttempt = 3 ∧
      (auth rejectingMachine 3 "a@x.com" staleDisk).result = none := by
  refine ⟨by decide, by decide, by decide, by decide⟩

/-- C2, amended: in a run of `auth` in which every probe fails, every `removeAuth` called
by `auth` succeeds and no consent exchange fails, each authentication attempt ends with
one purge and a further call of `auth`: whatever the number `n` of nested calls looked
at, the run has by then started `n` attempts, purged `n` times, and neither returned nor
ended the process. There is no bound of two purges, and a third attempt is started. -/
theorem auth_retries_without_bound {ω : Type} (m : Machine ω) (mail : String) (n : Nat)
    (w : ω)
    (hprobe : ∀ ev ∈ (auth m n mail w).trace, ev.isPassedProbe = false)
    (hremove : ∀ ev ∈ (auth m n mail w).trace, ev.isFailedPurge = false)
    (hexchange : ∀ ev ∈ (auth m n mail w).trace, ev.isFailedExchange = false) :
    (auth m n mail w).result = none ∧
      (auth m n mail w).trace.countP AuthEvent.isPurge = n ∧
      (auth m n mail w).trace.countP AuthEvent.isAttempt = n := by
  induction n generalizing w with
  | zero => exact ⟨rfl, rfl, rfl⟩
  | succ k ih =>
    obtain ⟨hc1, hc2, hc3⟩ := acquireToken_events m mail w
    rcases hacq : acquireToken m mail w with ⟨evs, w1, err | tok⟩
    · exfalso
      rw [hacq] at hc3
      have hmem : AuthEvent.logFatal err ∈ (auth m (k + 1) mail w).trace := by
        rw [auth]
        simp only [hacq]
        exact List.mem_cons_of_mem _ (hc3 err rfl)
      have := hexchange _ hmem
      simp [AuthEvent.isFailedExchange] at this
    · rw [hacq] at hc1 hc2
      simp only [] at hc1 hc2
      rcases hp : m.probe tok w1 with ⟨_ | perr, w2⟩
      · exfalso
        have hmem : AuthEvent.probe tok none ∈ (auth m (k + 1) mail w).trace := by
          rw [auth]
          simp [hacq, hp]
        have := hprobe _ hmem
        simp [AuthEvent.isPassedProbe] at this
      · rcases hr : removeAuth m mail w2 with ⟨_ | rerr, w3⟩
        · have hrun : auth m (k + 1) mail w = (auth m k mail w3).after
              (.authCall mail :: (evs ++ [.probe tok (some perr),
                .logUnableToValidate mail perr, .removeAuthOnProbe mail none])) := by
            rw [auth]
            simp only [hacq, hp, hr]
          rw [hrun] at hprobe hremove hexchange ⊢
          obtain ⟨h1, h2, h3⟩ := ih w3
            (fun ev hm => hprobe ev (by simp [AuthRun.after, hm]))
            (fun ev hm => hremove ev (by simp [AuthRun.after, hm]))
            (fun ev hm => hexchange ev (by simp [AuthRun.after, hm]))
          refine ⟨h1, ?_, ?_⟩
          · simp [AuthRun.after, List.countP_append, List.countP_cons, h2, hc1,
              AuthEvent.isPurge]
          · simp [AuthRun.after, List.countP_append, List.countP_cons, h3, hc2,
              AuthEvent.isAttempt]
        · exfalso
          have hmem : AuthEvent.removeAuthOnProbe mail (some rerr) ∈
              (auth m (k + 1) mail w).trace := by
            rw [auth]
            simp [hacq, hp, hr]
          have := hremove _ hmem
          simp [AuthEvent.isFailedPurge] at this

theorem auth_retries_without_bound_witness :
    (auth rejectingMachine 3 "a@x.com" staleDisk).result = none ∧
      (auth rejectingMachine 3 "a@x.com" staleDisk).trace.countP AuthEvent.isPurge = 3 ∧
      (auth rejectingMachine 3 "a@x.com" staleDisk).trace.countP AuthEvent.isAttempt = 3 :=
  auth_retries_without_bound rejectingMachine "a@x.com" 3 staleDisk (by decide) (by decide)
    (by decide)

end Auth

section FindFolder

theorem Run.after_after {σ α : Type} (a b : List Event) (r : Run σ α) :
    (r.after b).after a = r.after (a ++ b) := by
  simp [Run.after]

theorem Run.after_nil {σ α : Type} (r : Run σ α) : r.after [] = r := by
  simp [Run.after]

theorem statelessService_filesDo (files : FilesListCall → Except String FileList)
    (perms : PermissionsListCall → Except String PermissionList) (c : FilesListCall) (w : Unit) :
    (statelessService files perms).filesDo c w = (files c, w) := rfl

theorem statelessService_permissionsDo (files : FilesListCall → Except String FileList)
    (perms : PermissionsListCall → Except String PermissionList) (c : PermissionsListCall)
    (w : Unit) :
    (statelessService files perms).permissionsDo c w = (perms c, w) := rfl

theorem requestTokens_append_last {P : Type} (fetch : Option String → Except String P)
    (next : P → String) (ps : List P) :
    ∀ (tok last : Option String), Follows fetch next tok ps last →
      requestTokens next tok ps ++ [last] = tok :: ps.map (fun p => some (next p)) := by
  induction ps with
  | nil => intro tok last h; simp [Follows] at h; simp [requestTokens, h]
  | cons p ps ih =>
    intro tok last h
    obtain ⟨_, _, h3⟩ := h
    simp [requestTokens, ih _ _ h3]

theorem findFolderScan_none_iff (name : String) (items : List File) :
    findFolderScan name items = none ↔ ∀ it ∈ items, ¬ Matches name it := by
  induction items with
  | nil => simp [findFolderScan]
  | cons x xs ih =>
    by_cases hx : x.MimeType = folderMimeType ∧ x.Name = name
    · simp [findFolderScan, hx, Matches]
    · simp only [findFolderScan, hx, if_false, ih, List.mem_cons, forall_eq_or_imp, Matches]
      simp [hx]

theorem findFolderScan_first (name : String) (before after : List File) (x : File)
    (hx : Matches name x) (hb : ∀ it ∈ before, ¬ Matches name it) :
    findFolderScan name (before ++ x :: after) = some x := by
  induction before with
  | nil => simp [findFolderScan, Matches.eq_1 name x ▸ hx]
  | cons b bs ih =>
    have hb0 : ¬ (b.MimeType = folderMimeType ∧ b.Name = name) := hb b (by simp)
    simp only [List.cons_append, findFolderScan, hb0, if_false]
    exact ih (fun it hit => hb it (by simp [hit]))

/-- The pages before the one that decides: `findFolder` fetches each of them with the
cursor of the one before, finds no match and goes on. -/
theorem findFolderLoop_pages (files : FilesListCall → Except String FileList)
    (perms : PermissionsListCall → Except String PermissionList) (name : String)
    (pre : List FileList) :
    ∀ (tok last : Option String) (listcall : FilesListCall) (nextpage : String) (fuel : Nat),
      (if nextpage ≠ "" then listcall.PageToken nextpage else listcall).Q
          ("name='" ++ name ++ "'") = findCall name tok →
      Follows (fun t => files (findCall name t)) FileList.NextPageToken tok pre last →
      (∀ p ∈ pre, findFolderScan name p.Files = none) →
      ∃ (listcall1 : FilesListCall) (nextpage1 : String),
        (if nextpage1 ≠ "" then listcall1.PageToken nextpage1 else listcall1).Q
          ("name='" ++ name ++ "'") = findCall name last ∧
        findFolderLoop (statelessService files perms) name (pre.length + fuel) listcall
            nextpage () =
          (findFolderLoop (statelessService files perms) name fuel listcall1 nextpage1 ()).after
            ((requestTokens FileList.NextPageToken tok pre).map
              (fun t => Event.filesDo (findCall name t))) := by
  induction pre with
  | nil =>
    intro tok last listcall nextpage fuel hcall hf _
    simp only [Follows] at hf
    subst hf
    exact ⟨listcall, nextpage, hcall, by simp [requestTokens, Run.after]⟩
  | cons p ps ih =>
    intro tok last listcall nextpage fuel hcall hf hscan
    obtain ⟨h1, h2, h3⟩ := hf
    have hp : findFolderScan name p.Files = none := hscan p (by simp)
    have hcall1 : (if p.NextPageToken ≠ "" then (findCall name tok).PageToken p.NextPageToken
        else findCall name tok).Q ("name='" ++ name ++ "'") =
        findCall name (some p.NextPageToken) := by
      simp [h2, findCall, FilesListCall.PageToken, FilesListCall.Q]
    obtain ⟨lc, np, hc, heq⟩ := ih (some p.NextPageToken) last (findCall name tok)
      p.NextPageToken fuel hcall1 h3 (fun q hq => hscan q (by simp [hq]))
    refine ⟨lc, np, hc, ?_⟩
    have hlen : (p :: ps).length + fuel = (ps.length + fuel) + 1 := by
      simp only [List.length_cons]; omega
    rw [hlen, findFolderLoop]
    simp only [hcall, statelessService_filesDo, h1, hp, h2, if_false]
    rw [heq, Run.after_after]
    simp [requestTokens]

theorem findFolderLoop_found (files : FilesListCall → Except String FileList)
    (perms : PermissionsListCall → Except String PermissionList) (name : String)
    (tok : Option String) (listcall : FilesListCall) (nextpage : String) (fuel : Nat)
    (pg : FileList) (x : File)
    (hcall : (if nextpage ≠ "" then listcall.PageToken nextpage else listcall).Q
          ("name='" ++ name ++ "'") = findCall name tok)
    (hpg : files (findCall name tok) = .ok pg) (hx : findFolderScan name pg.Files = some x) :
    findFolderLoop (statelessService files perms) name (fuel + 1) listcall nextpage () =
      ⟨[.filesDo (findCall name tok)], (),
        some (.ok ⟨statelessService files perms, x.Id, ""⟩)⟩ := by
  rw [findFolderLoop]
  simp only [hcall, statelessService_filesDo, hpg, hx]

theorem findFolderLoop_exhausted (files : FilesListCall → Except String FileList)
    (perms : PermissionsListCall → Except String PermissionList) (name : String)
    (tok : Option String) (listcall : FilesListCall) (nextpage : String) (fuel : Nat)
    (pg : FileList)
    (hcall : (if nextpage ≠ "" then listcall.PageToken nextpage else listcall).Q
          ("name='" ++ name ++ "'") = findCall name tok)
    (hpg : files (findCall name tok) = .ok pg) (hx : findFolderScan name pg.Files = none)
    (hend : pg.NextPageToken = "") :
    findFolderLoop (statelessService files perms) name (fuel + 1) listcall nextpage () =
      ⟨[.filesDo (findCall name tok)], (), some (.error (notFound name))⟩ := by
  rw [findFolderLoop]
  simp only [hcall, statelessService_filesDo, hpg, hx, hend, if_true, notFound]

theorem findFolder_initial_call (name : String) :
    (if ("" : String) ≠ "" then FilesList.PageToken "" else FilesList).Q
      ("name='" ++ name ++ "'") = findCall name none := by
  simp [FilesList, FilesListCall.Q, findCall]

theorem findFolderScan_append (name : String) (xs ys : List File) :
    findFolderScan name (xs ++ ys) =
      (findFolderScan name xs).orElse (fun _ => findFolderScan name ys) := by
  induction xs with
  | nil => simp [findFolderScan]
  | cons x xs ih =>
    by_cases hx : x.MimeType = folderMimeType ∧ x.Name = name
    · simp [findFolderScan, hx]
    · simpa [findFolderScan, hx] using ih

/-- On a complete result set without fetch error, `findFolder` returns the first
accepted entry over all pages, or the not-found error when there is none. -/
theorem findFolder_complete (files : FilesListCall → Except String FileList)
    (perms : PermissionsListCall → Except String PermissionList) (name : String)
    (pre : List FileList) :
    ∀ (tok tokLast : Option String) (listcall : FilesListCall) (nextpage : String)
      (fuel : Nat) (last : FileList),
      (if nextpage ≠ "" then listcall.PageToken nextpage else listcall).Q
          ("name='" ++ name ++ "'") = findCall name tok →
      Follows (fun t => files (findCall name t)) FileList.NextPageToken tok pre tokLast →
      files (findCall name tokLast) = .ok last → last.NextPageToken = "" →
      (findFolderLoop (statelessService files perms) name (pre.length + (fuel + 1)) listcall
          nextpage ()).result =
        match firstMatch name (pre ++ [last]) with
        | some x => some (.ok ⟨statelessService files perms, x.Id, ""⟩)
        | none => some (.error (notFound name)) := by
  induction pre with
  | nil =>
    intro tok tokLast listcall nextpage fuel last hcall hf hlast hend
    simp only [Follows] at hf
    subst hf
    simp only [List.length_nil, Nat.zero_add, firstMatch, List.nil_append, List.flatMap_cons,
      List.flatMap_nil, List.append_nil]
    cases hx : findFolderScan name last.Files with
    | none => rw [findFolderLoop_exhausted files perms name tok _ _ _ last hcall hlast hx hend]
    | some x => rw [findFolderLoop_found files perms name tok _ _ _ last x hcall hlast hx]
  | cons p ps ih =>
    intro tok tokLast listcall nextpage fuel last hcall hf hlast hend
    obtain ⟨h1, h2, h3⟩ := hf
    have hfm : firstMatch name (p :: ps ++ [last]) =
        (findFolderScan name p.Files).orElse (fun _ => firstMatch name (ps ++ [last])) := by
      simp [firstMatch, findFolderScan_append]
    have hlen : (p :: ps).length + (fuel + 1) = (ps.length + (fuel + 1)) + 1 := by
      simp only [List.length_cons]; omega
    rw [hfm, hlen]
    cases hx : findFolderScan name p.Files with
    | some x =>
      rw [findFolderLoop_found files perms name tok _ _ _ p x hcall h1 hx]
      simp
    | none =>
      have hcall1 : (if p.NextPageToken ≠ "" then (findCall name tok).PageToken p.NextPageToken
          else findCall name tok).Q ("name='" ++ name ++ "'") =
          findCall name (some p.NextPageToken) := by
        simp [h2, findCall, FilesListCall.PageToken, FilesListCall.Q]
      have := ih (some p.NextPageToken) tokLast (findCall name tok) p.NextPageToken fuel last
        hcall1 h3 hlast hend
      rw [findFolderLoop]
      simp only [hcall, statelessService_filesDo, h1, hx, h2, if_false, Run.after, this]
      simp

theorem firstMatch_none_iff (name : String) (pages : List FileList) :
    firstMatch name pages = none ↔ ∀ p ∈ pages, ∀ it ∈ p.Files, ¬ Matches name it := by
  simp only [firstMatch, findFolderScan_none_iff, List.mem_flatMap]
  constructor
  · intro h p hp it hit; exact h it ⟨p, hp, hit⟩
  · rintro h it ⟨p, hp, hit⟩; exact h p hp it hit

/-- C4 (first match): on a result set served page by page, when the first
folder-typed entry named exactly `name` is `x`, on the page `pg` that follows the pages
`pre` (whatever comes after `x`, further folders of that name included), `findFolder`
returns the folder with the id of `x` and a nil error, and its requests are exactly
those for the pages `pre` and for `pg`: no page after `pg` is fetched. -/
theorem findFolder_first_match (files : FilesListCall → Except String FileList)
    (perms : PermissionsListCall → Except String PermissionList) (name : String)
    (pre : List FileList) (pg : FileList) (before after : List File) (x : File)
    (tok : Option String) (fuel : Nat)
    (hpre : Follows (fun t => files (findCall name t)) FileList.NextPageToken none pre tok)
    (hpg : files (findCall name tok) = .ok pg)
    (hsplit : pg.Files = before ++ x :: after)
    (hx : Matches name x)
    (hearlier : ∀ p ∈ pre, ∀ it ∈ p.Files, ¬ Matches name it)
    (hbefore : ∀ it ∈ before, ¬ Matches name it)
    (hfuel : pre.length < fuel) :
    findFolder (statelessService files perms) name fuel () =
      ⟨(none :: pre.map (fun p => some p.NextPageToken)).map
          (fun t => Event.filesDo (findCall name t)), (),
        some (.ok ⟨statelessService files perms, x.Id, ""⟩)⟩ := by
  obtain ⟨k, rfl⟩ : ∃ k, fuel = pre.length + (k + 1) := ⟨fuel - pre.length - 1, by omega⟩
  obtain ⟨lc, np, hc, heq⟩ := findFolderLoop_pages files perms name pre none tok FilesList ""
    (k + 1) (findFolder_initial_call name) hpre
    (fun p hp => (findFolderScan_none_iff name p.Files).2 (hearlier p hp))
  have hscan : findFolderScan name pg.Files = some x := by
    rw [hsplit]; exact findFolderScan_first name before after x hx hbefore
  rw [findFolder, heq, findFolderLoop_found files perms name tok lc np k pg x hc hpg hscan]
  have h := requestTokens_append_last _ _ pre none tok hpre
  simp only [Run.after]
  rw [← h]
  simp

theorem findFolder_first_match_witness :
    findFolder (statelessService searchFiles noPerms) "X" 5 () =
      ⟨[.filesDo (findCall "X" none), .filesDo (findCall "X" (some "t2"))], (),
        some (.ok ⟨statelessService searchFiles noPerms, "a", ""⟩)⟩ :=
  findFolder_first_match searchFiles noPerms "X" [searchPage1] searchPage2 []
    [⟨"b", "X", folderMimeType, false, []⟩] ⟨"a", "X", folderMimeType, true, []⟩ (some "t2") 5
    ⟨rfl, by decide, rfl⟩ rfl rfl (by decide) (by decide) (by decide) (by decide)

/-- Without a match on any page of a complete result set, `findFolder` issues one
request a page and nothing else, and returns the not-found error. -/
theorem findFolder_no_match_run (files : FilesListCall → Except String FileList)
    (perms : PermissionsListCall → Except String PermissionList) (name : String)
    (pre : List FileList) (last : FileList) (tok : Option String) (fuel : Nat)
    (hpre : Follows (fun t => files (findCall name t)) FileList.NextPageToken none pre tok)
    (hlast : files (findCall name tok) = .ok last) (hend : last.NextPageToken = "")
    (hfuel : pre.length < fuel)
    (hno : ∀ p ∈ pre ++ [last], ∀ it ∈ p.Files, ¬ Matches name it) :
    findFolder (statelessService files perms) name fuel () =
      ⟨(none :: pre.map (fun p => some p.NextPageToken)).map
          (fun t => Event.filesDo (findCall name t)), (), some (.error (notFound name))⟩ := by
  obtain ⟨k, rfl⟩ : ∃ k, fuel = pre.length + (k + 1) := ⟨fuel - pre.length - 1, by omega⟩
  obtain ⟨lc, np, hc, heq⟩ := findFolderLoop_pages files perms name pre none tok FilesList ""
    (k + 1) (findFolder_initial_call name) hpre
    (fun p hp => (findFolderScan_none_iff name p.Files).2 (hno p (by simp [hp])))
  have hscan : findFolderScan name last.Files = none :=
    (findFolderScan_none_iff name last.Files).2 (hno last (by simp))
  rw [findFolder, heq, findFolderLoop_exhausted files perms name tok lc np k last hc hlast hscan
    hend]
  have h := requestTokens_append_last _ _ pre none tok hpre
  simp only [Run.after]
  rw [← h]
  simp

/-- C5 (not found): on a result set of the pages `pre` and then `last` (the only one
with an empty cursor), served without a fetch error, `findFolder` returns the error
"Folder <name> not found" exactly when no entry of any page is folder-typed and named
exactly `name`; and then its events are the requests for these pages, one each, each
with the cursor of the page before. -/
theorem findFolder_not_found_iff (files : FilesListCall → Except String FileList)
    (perms : PermissionsListCall → Except String PermissionList) (name : String)
    (pre : List FileList) (last : FileList) (tok : Option String) (fuel : Nat)
    (hpre : Follows (fun t => files (findCall name t)) FileList.NextPageToken none pre tok)
    (hlast : files (findCall name tok) = .ok last) (hend : last.NextPageToken = "")
    (hfuel : pre.length < fuel) :
    ((findFolder (statelessService files perms) name fuel ()).result =
        some (.error ("Folder " ++ name ++ " not found")) ↔
      ∀ p ∈ pre ++ [last], ∀ it ∈ p.Files,
        ¬ (it.MimeType = folderMimeType ∧ it.Name = name)) ∧
    ((∀ p ∈ pre ++ [last], ∀ it ∈ p.Files,
        ¬ (it.MimeType = folderMimeType ∧ it.Name = name)) →
      (findFolder (statelessService files perms) name fuel ()).trace =
          (none :: pre.map (fun p => some p.NextPageToken)).map
            (fun t => Event.filesDo (findCall name t)) ∧
        ((findFolder (statelessService files perms) name fuel ()).trace).length =
          (pre ++ [last]).length) := by
  obtain ⟨k, rfl⟩ : ∃ k, fuel = pre.length + (k + 1) := ⟨fuel - pre.length - 1, by omega⟩
  have hres := findFolder_complete files perms name pre none tok FilesList "" k last
    (findFolder_initial_call name) hpre hlast hend
  refine ⟨⟨fun h => ?_, fun h => ?_⟩, fun h => ?_⟩
  · apply (firstMatch_none_iff name (pre ++ [last])).1
    cases hfm : firstMatch name (pre ++ [last]) with
    | none => rfl
    | some x =>
      rw [findFolder, hres, hfm] at h
      simp at h
  · rw [findFolder_no_match_run files perms name pre last tok _ hpre hlast hend hfuel h]
    rfl
  · rw [findFolder_no_match_run files perms name pre last tok _ hpre hlast hend hfuel h]
    simp

theorem findFolder_not_found_iff_witness :
    ((findFolder (statelessService searchFiles noPerms) "Z" 3 ()).result =
        some (.error ("Folder " ++ "Z" ++ " not found")) ↔
      ∀ p ∈ [searchPage1, searchPage2] ++ [searchPage3], ∀ it ∈ p.Files,
        ¬ (it.MimeType = folderMimeType ∧ it.Name = "Z")) ∧
    ((∀ p ∈ [searchPage1, searchPage2] ++ [searchPage3], ∀ it ∈ p.Files,
        ¬ (it.MimeType = folderMimeType ∧ it.Name = "Z")) →
      (findFolder (statelessService searchFiles noPerms) "Z" 3 ()).trace =
          (none :: [searchPage1, searchPage2].map (fun p => some p.NextPageToken)).map
            (fun t => Event.filesDo (findCall "Z" t)) ∧
        ((findFolder (statelessService searchFiles noPerms) "Z" 3 ()).trace).length =
          ([searchPage1, searchPage2] ++ [searchPage3]).length) :=
  findFolder_not_found_iff searchFiles noPerms "Z" [searchPage1, searchPage2] searchPage3
    (some "t3") 3 ⟨rfl, by decide, rfl, by decide, rfl⟩ rfl rfl (by decide)

/-- C9, as the claim states it, fails: the listing holds one folder-typed entry with
the empty name, served without a fetch error, and `findFolder("")` returns that
folder instead of the not-found error. -/
theorem findFolder_empty_name_counterexample :
    unnamedFolderFiles (findCall "" none) =
        .ok ⟨[⟨"d1", "", folderMimeType, true, []⟩], ""⟩ ∧
      (findFolder (statelessService unnamedFolderFiles noPerms) "" 1 ()).result =
        some (.ok ⟨statelessService unnamedFolderFiles noPerms, "d1", ""⟩) ∧
      (findFolder (statelessService unnamedFolderFiles noPerms) "" 1 ()).result ≠
        some (.error ("Folder " ++ "" ++ " not found")) := by
  have h := findFolder_complete unnamedFolderFiles noPerms "" [] none none FilesList "" 0
    ⟨[⟨"d1", "", folderMimeType, true, []⟩], ""⟩ (findFolder_initial_call "") rfl rfl rfl
  have hfm : firstMatch "" ([] ++ [(⟨[⟨"d1", "", folderMimeType, true, []⟩], ""⟩ : FileList)]) =
      some ⟨"d1", "", folderMimeType, true, []⟩ := by decide
  rw [hfm] at h
  have h1 : (findFolder (statelessService unnamedFolderFiles noPerms) "" 1 ()).result =
      some (.ok ⟨statelessService unnamedFolderFiles noPerms, "d1", ""⟩) := h
  refine ⟨rfl, h1, ?_⟩
  rw [h1]
  simp

/-- C9, amended: for the empty folder name and a complete result set (the pages `pre`
and then `last`, the only one with an empty cursor) served without a fetch error:
when no listed entry is folder-typed with an empty name, `findFolder("")` returns the
not-found error; when the entry `x` is folder-typed with an empty name and no entry
before it in listing order is (on the pages `pre1` before its page `pg`, or before it
on `pg`), `findFolder("")` returns the folder with the id of `x` and a nil error. -/
theorem findFolder_empty_name (files : FilesListCall → Except String FileList)
    (perms : PermissionsListCall → Except String PermissionList)
    (pre : List FileList) (last : FileList) (tok : Option String) (fuel : Nat)
    (hpre : Follows (fun t => files (findCall "" t)) FileList.NextPageToken none pre tok)
    (hlast : files (findCall "" tok) = .ok last) (hend : last.NextPageToken = "")
    (hfuel : pre.length < fuel) :
    ((∀ p ∈ pre ++ [last], ∀ it ∈ p.Files, ¬ Matches "" it) →
      (findFolder (statelessService files perms) "" fuel ()).result =
        some (.error ("Folder " ++ "" ++ " not found"))) ∧
    (∀ (pre1 post : List FileList) (pg : FileList) (before after : List File) (x : File),
      pre ++ [last] = pre1 ++ pg :: post →
      pg.Files = before ++ x :: after →
      Matches "" x →
      (∀ p ∈ pre1, ∀ it ∈ p.Files, ¬ Matches "" it) →
      (∀ it ∈ before, ¬ Matches "" it) →
      (findFolder (statelessService files perms) "" fuel ()).result =
        some (.ok ⟨statelessService files perms, x.Id, ""⟩)) := by
  obtain ⟨k, rfl⟩ : ∃ k, fuel = pre.length + (k + 1) := ⟨fuel - pre.length - 1, by omega⟩
  have hres := findFolder_complete files perms "" pre none tok FilesList "" k last
    (findFolder_initial_call "") hpre hlast hend
  refine ⟨fun h => ?_, fun pre1 post pg before after x hpages hsplit hx hearlier hbefore => ?_⟩
  · rw [findFolder, hres, (firstMatch_none_iff "" (pre ++ [last])).2 h]
    rfl
  · have hflat : (pre ++ [last]).flatMap FileList.Files =
        (pre1.flatMap FileList.Files ++ before) ++ x :: (after ++ post.flatMap FileList.Files) := by
      rw [hpages]
      simp [List.flatMap_append, List.flatMap_cons, hsplit]
    have hfm : firstMatch "" (pre ++ [last]) = some x := by
      unfold firstMatch
      rw [hflat]
      apply findFolderScan_first "" _ _ x hx
      intro it hit
      rcases List.mem_append.1 hit with h1 | h2
      · obtain ⟨p, hp, hip⟩ := List.mem_flatMap.1 h1
        exact hearlier p hp it hip
      · exact hbefore it h2
    rw [findFolder, hres, hfm]

theorem findFolder_empty_name_witness :
    (findFolder (statelessService searchFiles noPerms) "" 3 ()).result =
        some (.error ("Folder " ++ "" ++ " not found")) ∧
      (findFolder (statelessService unnamedSearchFiles noPerms) "" 2 ()).result =
        some (.ok ⟨statelessService unnamedSearchFiles noPerms, "d1", ""⟩) :=
  ⟨(findFolder_empty_name searchFiles noPerms [searchPage1, searchPage2] searchPage3
      (some "t3") 3 (by decide) rfl rfl (by decide)).1 (by decide),
    (findFolder_empty_name unnamedSearchFiles noPerms [unnamedPage1] unnamedPage2
      (some "u2") 2 (by decide) rfl rfl (by decide)).2 [unnamedPage1] [] unnamedPage2
      [⟨"d0", "Z", folderMimeType, true, []⟩] [⟨"d2", "", folderMimeType, false, []⟩]
      ⟨"d1", "", folderMimeType, true, []⟩ rfl rfl (by decide) (by decide) (by decide)⟩

end FindFolder

section MigrateFolder

theorem drains_split {P : Type} (fetch : Option String → Except String P) (next : P → String)
    (ps : List P) :
    ∀ tok, Drains fetch next tok ps →
      ∃ (pre : List P) (last : P) (tokLast : Option String),
        ps = pre ++ [last] ∧ Follows fetch next tok pre tokLast ∧
          fetch tokLast = .ok last ∧ next last = "" := by
  induction ps with
  | nil => intro tok h; exact absurd h (by simp [Drains])
  | cons p ps ih =>
    intro tok h
    cases ps with
    | nil =>
      obtain ⟨h1, h2⟩ := h
      exact ⟨[], p, tok, rfl, rfl, h1, h2⟩
    | cons q rest =>
      obtain ⟨h1, h2, h3⟩ := h
      obtain ⟨pre, last, tl, hsplit, hf, hl, he⟩ := ih (some (next p)) h3
      exact ⟨p :: pre, last, tl, by simp [hsplit], ⟨h1, h2, hf⟩, hl, he⟩

theorem requestTokens_eq_dropLast {P : Type} (next : P → String) (ps : List P) :
    ∀ tok, requestTokens next tok ps = (tok :: ps.map (fun p => some (next p))).dropLast := by
  induction ps with
  | nil => intro tok; simp [requestTokens]
  | cons p ps ih => intro tok; simp [requestTokens, ih]

/-- The permission loop on a permission listing that drains: one request a page, each
page reported, the loop left at the page with the empty cursor. -/
theorem permissionsLoop_drains (files : FilesListCall → Except String FileList)
    (perms : PermissionsListCall → Except String PermissionList) (id : String)
    (qs : List PermissionList) :
    ∀ (tok : Option String) (call : PermissionsListCall) (np : String) (fuel : Nat),
      (if np ≠ "" then call.PageToken np else call) = permCall id tok →
      Drains (fun t => perms (permCall id t)) PermissionList.NextPageToken tok qs →
      qs.length ≤ fuel →
      permissionsLoop (statelessService files perms) fuel call np () =
        (permissionEvents id tok qs, (), true) := by
  induction qs with
  | nil => intro tok call np fuel _ h; exact absurd h (by simp [Drains])
  | cons p ps ih =>
    intro tok call np fuel hcall hd hlen
    obtain ⟨f, rfl⟩ : ∃ f, fuel = f + 1 := ⟨fuel - 1, by simp at hlen; omega⟩
    cases ps with
    | nil =>
      obtain ⟨h1, h2⟩ := hd
      rw [permissionsLoop]
      simp only [hcall, statelessService_permissionsDo, h1, h2, if_true]
      simp [permissionEvents]
    | cons q rest =>
      obtain ⟨h1, h2, h3⟩ := hd
      have hcall1 : (if p.NextPageToken ≠ "" then (permCall id tok).PageToken p.NextPageToken
          else permCall id tok) = permCall id (some p.NextPageToken) := by
        simp [h2, permCall, PermissionsListCall.PageToken]
      have hrec := ih (some p.NextPageToken) (permCall id tok) p.NextPageToken f hcall1 h3
        (by simpa using hlen)
      rw [permissionsLoop]
      simp only [hcall, statelessService_permissionsDo, h1, h2, if_false, hrec]
      simp [permissionEvents]

/-- The loop over the entries of a page when every file's permission listing drains. -/
theorem itemsLoop_drains (files : FilesListCall → Except String FileList)
    (perms : PermissionsListCall → Except String PermissionList)
    (pp : String → List PermissionList) (fuel : Nat) (items : List File)
    (hperm : ∀ it ∈ items, it.MimeType ≠ folderMimeType →
      Drains (fun t => perms (permCall it.Id t)) PermissionList.NextPageToken none (pp it.Id) ∧
        (pp it.Id).length ≤ fuel) :
    itemsLoop (statelessService files perms) fuel items () =
      (items.flatMap (itemEvents pp), (), true) := by
  induction items with
  | nil => simp [itemsLoop]
  | cons x xs ih =>
    have hxs := ih (fun it hit => hperm it (by simp [hit]))
    by_cases hx : x.MimeType = folderMimeType
    · rw [itemsLoop]
      simp [hx, hxs, itemEvents]
    · obtain ⟨hd, hl⟩ := hperm x (by simp) hx
      have hp := permissionsLoop_drains files perms x.Id (pp x.Id) none
        ((PermissionsList x.Id).Fields permissionFields) "" fuel
        (by simp [PermissionsList, PermissionsListCall.Fields, permCall]) hd hl
      rw [itemsLoop]
      simp [hx, hxs, hp, itemEvents]

/-- The listing pages before the last request: `migrateFolder` fetches each with the
cursor of the one before, handles its entries and goes on. -/
theorem migrateFolderLoop_pages (files : FilesListCall → Except String FileList)
    (perms : PermissionsListCall → Except String PermissionList) (srcID : String)
    (pp : String → List PermissionList) (pfuel : Nat) (pre : List FileList) :
    ∀ (tok last : Option String) (listcall : FilesListCall) (nextpage : String) (fuel : Nat),
      (if nextpage ≠ "" then listcall.PageToken nextpage else listcall).Q
          ("'" ++ srcID ++ "' in parents") = listCall srcID tok →
      Follows (fun t => files (listCall srcID t)) FileList.NextPageToken tok pre last →
      (∀ p ∈ pre, ∀ it ∈ p.Files, it.MimeType ≠ folderMimeType →
        Drains (fun t => perms (permCall it.Id t)) PermissionList.NextPageToken none
            (pp it.Id) ∧ (pp it.Id).length ≤ pfuel) →
      ∃ (listcall1 : FilesListCall) (nextpage1 : String),
        (if nextpage1 ≠ "" then listcall1.PageToken nextpage1 else listcall1).Q
          ("'" ++ srcID ++ "' in parents") = listCall srcID last ∧
        migrateFolderLoop (statelessService files perms) srcID (pre.length + fuel) pfuel
            listcall nextpage () =
          (migrateFolderLoop (statelessService files perms) srcID fuel pfuel listcall1
            nextpage1 ()).after (pageEvents srcID pp tok pre) := by
  induction pre with
  | nil =>
    intro tok last listcall nextpage fuel hcall hf _
    simp only [Follows] at hf
    subst hf
    exact ⟨listcall, nextpage, hcall, by simp [pageEvents, Run.after]⟩
  | cons p ps ih =>
    intro tok last listcall nextpage fuel hcall hf hperm
    obtain ⟨h1, h2, h3⟩ := hf
    have hitems := itemsLoop_drains files perms pp pfuel p.Files (hperm p (by simp))
    have hcall1 : (if p.NextPageToken ≠ "" then (listCall srcID tok).PageToken p.NextPageToken
        else listCall srcID tok).Q ("'" ++ srcID ++ "' in parents") =
        listCall srcID (some p.NextPageToken) := by
      simp [h2, listCall, FilesListCall.PageToken, FilesListCall.Q]
    obtain ⟨lc, np, hc, heq⟩ := ih (some p.NextPageToken) last (listCall srcID tok)
      p.NextPageToken fuel hcall1 h3 (fun q hq => hperm q (by simp [hq]))
    refine ⟨lc, np, hc, ?_⟩
    have hlen : (p :: ps).length + fuel = (ps.length + fuel) + 1 := by
      simp only [List.length_cons]; omega
    rw [hlen, migrateFolderLoop]
    simp only [hcall, statelessService_filesDo, h1, hitems, h2, if_false, if_true]
    rw [heq, Run.after_after]
    simp [pageEvents]

theorem migrateFolderLoop_last (files : FilesListCall → Except String FileList)
    (perms : PermissionsListCall → Except String PermissionList) (srcID : String)
    (pp : String → List PermissionList) (pfuel fuel : Nat) (tok : Option String)
    (listcall : FilesListCall) (nextpage : String) (pg : FileList)
    (hcall : (if nextpage ≠ "" then listcall.PageToken nextpage else listcall).Q
          ("'" ++ srcID ++ "' in parents") = listCall srcID tok)
    (hpg : files (listCall srcID tok) = .ok pg) (hend : pg.NextPageToken = "")
    (hperm : ∀ it ∈ pg.Files, it.MimeType ≠ folderMimeType →
        Drains (fun t => perms (permCall it.Id t)) PermissionList.NextPageToken none
            (pp it.Id) ∧ (pp it.Id).length ≤ pfuel) :
    migrateFolderLoop (statelessService files perms) srcID (fuel + 1) pfuel listcall nextpage
        () =
      ⟨pageEvents srcID pp tok [pg] ++ [.logFolderMigrated], (), some none⟩ := by
  have hitems := itemsLoop_drains files perms pp pfuel pg.Files hperm
  rw [migrateFolderLoop]
  simp only [hcall, statelessService_filesDo, hpg, hitems, hend, if_true]
  simp [pageEvents]

theorem migrateFolderLoop_error (files : FilesListCall → Except String FileList)
    (perms : PermissionsListCall → Except String PermissionList) (srcID : String)
    (pfuel fuel : Nat) (tok : Option String)
    (listcall : FilesListCall) (nextpage : String) (e : String)
    (hcall : (if nextpage ≠ "" then listcall.PageToken nextpage else listcall).Q
          ("'" ++ srcID ++ "' in parents") = listCall srcID tok)
    (herr : files (listCall srcID tok) = .error e) :
    migrateFolderLoop (statelessService files perms) srcID (fuel + 1) pfuel listcall nextpage
        () =
      ⟨[.logSearchParent ("'" ++ srcID ++ "' in parents"), .filesDo (listCall srcID tok),
          .logUnableToListFolders e], (), some (some e)⟩ := by
  rw [migrateFolderLoop]
  simp only [hcall, statelessService_filesDo, herr]

theorem migrateFolder_initial_call (srcID : String) :
    (if ("" : String) ≠ "" then (FilesList.Fields listingFields).PageToken ""
      else FilesList.Fields listingFields).Q ("'" ++ srcID ++ "' in parents") =
      listCall srcID none := by
  simp [FilesList, FilesListCall.Q, FilesListCall.Fields, listCall]

theorem pageEvents_append (srcID : String) (pp : String → List PermissionList)
    (files : Option String → Except String FileList) (pre : List FileList) :
    ∀ (tok last : Option String) (post : List FileList),
      Follows files FileList.NextPageToken tok pre last →
      pageEvents srcID pp tok (pre ++ post) =
        pageEvents srcID pp tok pre ++ pageEvents srcID pp last post := by
  induction pre with
  | nil => intro tok last post h; simp only [Follows] at h; subst h; simp [pageEvents]
  | cons p ps ih =>
    intro tok last post h
    obtain ⟨_, _, h3⟩ := h
    simp [pageEvents, ih _ _ post h3]

/-- The whole run of `migrateFolder` on a listing that drains, every listed file having
a permission listing that drains: the events of every page in order, then the closing
log line, and a nil error. -/
theorem migrateFolder_run (files : FilesListCall → Except String FileList)
    (perms : PermissionsListCall → Except String PermissionList) (srcID mail : String)
    (dst : Folder Unit) (pp : String → List PermissionList) (pages : List FileList)
    (fuel : Nat)
    (hlist : Drains (fun t => files (listCall srcID t)) FileList.NextPageToken none pages)
    (hperm : ∀ p ∈ pages, ∀ it ∈ p.Files, it.MimeType ≠ folderMimeType →
        Drains (fun t => perms (permCall it.Id t)) PermissionList.NextPageToken none
            (pp it.Id) ∧ (pp it.Id).length ≤ fuel)
    (hfuel : pages.length ≤ fuel) :
    migrateFolder ⟨statelessService files perms, srcID, mail⟩ dst fuel () =
      ⟨pageEvents srcID pp none pages ++ [.logFolderMigrated], (), some none⟩ := by
  obtain ⟨pre, last, tl, rfl, hf, hl, he⟩ := drains_split _ _ pages none hlist
  obtain ⟨k, rfl⟩ : ∃ k, fuel = pre.length + (k + 1) :=
    ⟨fuel - pre.length - 1, by simp at hfuel; omega⟩
  obtain ⟨lc, np, hc, heq⟩ := migrateFolderLoop_pages files perms srcID pp
    (pre.length + (k + 1)) pre none tl (FilesList.Fields listingFields) "" (k + 1)
    (migrateFolder_initial_call srcID) hf (fun p hp => hperm p (by simp [hp]))
  rw [migrateFolder]
  simp only []
  rw [heq, migrateFolderLoop_last files perms srcID pp _ k tl lc np last hc hl he
    (hperm last (by simp))]
  simp [Run.after, pageEvents_append srcID pp _ pre none tl [last] hf]

theorem filterMap_map_none {α β γ : Type} (f : β → Option γ) (g : α → β)
    (h : ∀ a, f (g a) = none) (l : List α) : (l.map g).filterMap f = [] := by
  induction l with
  | nil => rfl
  | cons a l ih => simp [List.filterMap_cons, h, ih]

theorem permissionEvents_filesCall (id : String) (qs : List PermissionList) :
    ∀ tok, (permissionEvents id tok qs).filterMap Event.filesCall? = [] := by
  induction qs with
  | nil => intro tok; rfl
  | cons q qs ih =>
    intro tok
    simp [permissionEvents, List.filterMap_append, List.filterMap_cons, Event.filesCall?, ih,
      filterMap_map_none Event.filesCall? Event.logSinglePermission (fun _ => rfl)]

theorem permissionEvents_visited (id : String) (qs : List PermissionList) :
    ∀ tok, (permissionEvents id tok qs).filterMap Event.visited? = [] := by
  induction qs with
  | nil => intro tok; rfl
  | cons q qs ih =>
    intro tok
    simp [permissionEvents, List.filterMap_append, List.filterMap_cons, Event.visited?, ih,
      filterMap_map_none Event.visited? Event.logSinglePermission (fun _ => rfl)]

theorem permissionEvents_fileReport (id : String) (qs : List PermissionList) :
    ∀ tok, (permissionEvents id tok qs).filterMap Event.fileReport? = [] := by
  induction qs with
  | nil => intro tok; rfl
  | cons q qs ih =>
    intro tok
    simp [permissionEvents, List.filterMap_append, List.filterMap_cons, Event.fileReport?, ih,
      filterMap_map_none Event.fileReport? Event.logSinglePermission (fun _ => rfl)]

theorem permissionEvents_permissionsCall (id : String) (qs : List PermissionList) :
    ∀ tok, (permissionEvents id tok qs).filterMap Event.permissionsCall? =
      (requestTokens PermissionList.NextPageToken tok qs).map (permCall id) := by
  induction qs with
  | nil => intro tok; rfl
  | cons q qs ih =>
    intro tok
    simp [permissionEvents, requestTokens, List.filterMap_append, List.filterMap_cons,
      Event.permissionsCall?, ih,
      filterMap_map_none Event.permissionsCall? Event.logSinglePermission (fun _ => rfl)]

theorem permissionEvents_permissionsReport (id : String) (qs : List PermissionList) :
    ∀ tok, (permissionEvents id tok qs).filterMap Event.permissionsReport? = qs := by
  induction qs with
  | nil => intro tok; rfl
  | cons q qs ih =>
    intro tok
    simp [permissionEvents, List.filterMap_append, List.filterMap_cons,
      Event.permissionsReport?, ih,
      filterMap_map_none Event.permissionsReport? Event.logSinglePermission (fun _ => rfl)]

theorem itemEvents_filesCall (pp : String → List PermissionList) (items : List File) :
    (items.flatMap (itemEvents pp)).filterMap Event.filesCall? = [] := by
  induction items with
  | nil => rfl
  | cons x xs ih =>
    by_cases hx : x.MimeType = folderMimeType
    · simp [List.flatMap_cons, itemEvents, hx, List.filterMap_append, List.filterMap_cons,
        Event.filesCall?, ih]
    · simp [List.flatMap_cons, itemEvents, hx, List.filterMap_append, List.filterMap_cons,
        Event.filesCall?, ih, permissionEvents_filesCall,
        filterMap_map_none Event.filesCall? Event.logOwner (fun _ => rfl)]

theorem itemEvents_visited (pp : String → List PermissionList) (items : List File) :
    (items.flatMap (itemEvents pp)).filterMap Event.visited? = items.map File.Name := by
  induction items with
  | nil => rfl
  | cons x xs ih =>
    by_cases hx : x.MimeType = folderMimeType
    · simp [List.flatMap_cons, itemEvents, hx, List.filterMap_append, List.filterMap_cons,
        Event.visited?, ih]
    · simp [List.flatMap_cons, itemEvents, hx, List.filterMap_append, List.filterMap_cons,
        Event.visited?, ih, permissionEvents_visited,
        filterMap_map_none Event.visited? Event.logOwner (fun _ => rfl)]

theorem itemEvents_fileReport (pp : String → List PermissionList) (items : List File) :
    (items.flatMap (itemEvents pp)).filterMap Event.fileReport? =
      (items.filter (fun it => it.MimeType ≠ folderMimeType)).map
        (fun it => (it.Name, it.OwnedByMe)) := by
  induction items with
  | nil => rfl
  | cons x xs ih =>
    by_cases hx : x.MimeType = folderMimeType
    · simp [List.flatMap_cons, itemEvents, hx, List.filterMap_append, List.filterMap_cons,
        Event.fileReport?, ih]
    · simp [List.flatMap_cons, itemEvents, hx, List.filterMap_append, List.filterMap_cons,
        Event.fileReport?, ih, permissionEvents_fileReport,
        filterMap_map_none Event.fileReport? Event.logOwner (fun _ => rfl)]

theorem itemEvents_permissionsCall (pp : String → List PermissionList) (items : List File) :
    (items.flatMap (itemEvents pp)).filterMap Event.permissionsCall? =
      (items.filter (fun it => it.MimeType ≠ folderMimeType)).flatMap
        (fun it => (requestTokens PermissionList.NextPageToken none (pp it.Id)).map
          (permCall it.Id)) := by
  induction items with
  | nil => rfl
  | cons x xs ih =>
    by_cases hx : x.MimeType = folderMimeType
    · simp [List.flatMap_cons, itemEvents, hx, List.filterMap_append, List.filterMap_cons,
        Event.permissionsCall?, ih]
    · simp [List.flatMap_cons, itemEvents, hx, List.filterMap_append, List.filterMap_cons,
        Event.permissionsCall?, ih, permissionEvents_permissionsCall,
        filterMap_map_none Event.permissionsCall? Event.logOwner (fun _ => rfl)]

theorem pageEvents_filesCall (srcID : String) (pp : String → List PermissionList)
    (ps : List FileList) :
    ∀ tok, (pageEvents srcID pp tok ps).filterMap Event.filesCall? =
      (requestTokens FileList.NextPageToken tok ps).map (listCall srcID) := by
  induction ps with
  | nil => intro tok; rfl
  | cons p ps ih =>
    intro tok
    simp [pageEvents, requestTokens, List.filterMap_append, List.filterMap_cons,
      Event.filesCall?, ih, itemEvents_filesCall]

theorem pageEvents_visited (srcID : String) (pp : String → List PermissionList)
    (ps : List FileList) :
    ∀ tok, (pageEvents srcID pp tok ps).filterMap Event.visited? =
      (ps.flatMap FileList.Files).map File.Name := by
  induction ps with
  | nil => intro tok; rfl
  | cons p ps ih =>
    intro tok
    simp [pageEvents, List.filterMap_append, List.filterMap_cons, Event.visited?, ih,
      itemEvents_visited]

theorem pageEvents_fileReport (srcID : String) (pp : String → List PermissionList)
    (ps : List FileList) :
    ∀ tok, (pageEvents srcID pp tok ps).filterMap Event.fileReport? =
      (nonFolders ps).map (fun it => (it.Name, it.OwnedByMe)) := by
  induction ps with
  | nil => intro tok; rfl
  | cons p ps ih =>
    intro tok
    have := ih (some p.NextPageToken)
    simp only [nonFolders] at this ⊢
    simp [pageEvents, List.filterMap_append, List.filterMap_cons, Event.fileReport?, this,
      itemEvents_fileReport]

theorem pageEvents_permissionsCall (srcID : String) (pp : String → List PermissionList)
    (ps : List FileList) :
    ∀ tok, (pageEvents srcID pp tok ps).filterMap Event.permissionsCall? =
      (nonFolders ps).flatMap
        (fun it => (requestTokens PermissionList.NextPageToken none (pp it.Id)).map
          (permCall it.Id)) := by
  induction ps with
  | nil => intro tok; rfl
  | cons p ps ih =>
    intro tok
    have := ih (some p.NextPageToken)
    simp only [nonFolders] at this ⊢
    simp [pageEvents, List.filterMap_append, List.filterMap_cons, Event.permissionsCall?, this,
      itemEvents_permissionsCall]

/-- C3 (pagination completeness): for a listing of the pages `pages` (`Drains`: each
served for the cursor of the one before, only the last with an empty cursor) and, for
every listed entry that is not folder-typed, a permission listing of the pages
`pp id`, all served without error, `migrateFolder` returns nil; its listing requests
are one a page, the first without cursor and each next one with the cursor of the page
before; the entries it visits are the listed entries, each once, in listing order; and
its permission requests are, entry by entry, one for each permission page. -/
theorem migrateFolder_pagination (files : FilesListCall → Except String FileList)
    (perms : PermissionsListCall → Except String PermissionList) (srcID mail : String)
    (dst : Folder Unit) (pp : String → List PermissionList) (pages : List FileList)
    (fuel : Nat)
    (hlist : Drains (fun t => files (listCall srcID t)) FileList.NextPageToken none pages)
    (hperm : ∀ p ∈ pages, ∀ it ∈ p.Files, it.MimeType ≠ folderMimeType →
        Drains (fun t => perms (permCall it.Id t)) PermissionList.NextPageToken none
          (pp it.Id))
    (hfuel : pages.length ≤ fuel)
    (hpfuel : ∀ p ∈ pages, ∀ it ∈ p.Files, it.MimeType ≠ folderMimeType →
        (pp it.Id).length ≤ fuel) :
    (migrateFolder ⟨statelessService files perms, srcID, mail⟩ dst fuel ()).result =
        some none ∧
      (migrateFolder ⟨statelessService files perms, srcID, mail⟩ dst fuel ()).trace.filterMap
          Event.filesCall? =
        ((none :: pages.map (fun p => some p.NextPageToken)).dropLast).map (listCall srcID) ∧
      ((migrateFolder ⟨statelessService files perms, srcID, mail⟩ dst fuel ()).trace.filterMap
          Event.filesCall?).length = pages.length ∧
      (migrateFolder ⟨statelessService files perms, srcID, mail⟩ dst fuel ()).trace.filterMap
          Event.visited? = (pages.flatMap FileList.Files).map File.Name ∧
      (migrateFolder ⟨statelessService files perms, srcID, mail⟩ dst fuel ()).trace.filterMap
          Event.permissionsCall? =
        (nonFolders pages).flatMap (fun it =>
          ((none :: (pp it.Id).map (fun q => some q.NextPageToken)).dropLast).map
            (permCall it.Id)) ∧
      ∀ it ∈ nonFolders pages,
        (((none :: (pp it.Id).map (fun q => some q.NextPageToken)).dropLast).map
            (permCall it.Id)).length = (pp it.Id).length := by
  have hrun := migrateFolder_run files perms srcID mail dst pp pages fuel hlist
    (fun p hp it hit hnf => ⟨hperm p hp it hit hnf, hpfuel p hp it hit hnf⟩) hfuel
  rw [hrun]
  refine ⟨rfl, ?_, ?_, ?_, ?_, ?_⟩
  · simp [List.filterMap_append, pageEvents_filesCall, requestTokens_eq_dropLast,
      Event.filesCall?]
  · simp [List.filterMap_append, pageEvents_filesCall, requestTokens_eq_dropLast,
      Event.filesCall?]
  · simp [List.filterMap_append, pageEvents_visited, Event.visited?]
  · simp [List.filterMap_append, pageEvents_permissionsCall, requestTokens_eq_dropLast,
      Event.permissionsCall?]
  · intro it _
    simp

theorem migrateFolder_pagination_witness :
    (migrateFolder ⟨statelessService scenarioFiles scenarioPerms, "src", "a@x.com"⟩
        scenarioDst 2 ()).result = some none ∧
      (migrateFolder ⟨statelessService scenarioFiles scenarioPerms, "src", "a@x.com"⟩
          scenarioDst 2 ()).trace.filterMap Event.filesCall? =
        [listCall "src" none, listCall "src" (some "p2")] :=
  have h := migrateFolder_pagination scenarioFiles scenarioPerms "src" "a@x.com" scenarioDst
    scenarioPermissionPages [scenarioPage1, scenarioPage2] 2
    (by decide) (by decide) (by decide) (by decide)
  ⟨h.1, h.2.1⟩

/-- C6 (non-folder filter): on a listing and permission listings served without
error, the ownership reports of `migrateFolder` are those of the listed entries that are
not folder-typed, in listing order, its permission requests are those of the same
entries in the same order, and every permission request names the id of such an entry.
On the scenario of the specification (page 1 holds the file `f1`, cursor `p2`; page 2
holds the folder `f2`) there is one ownership report and one permission request, both
for `f1`. -/
theorem migrateFolder_non_folder_filter (files : FilesListCall → Except String FileList)
    (perms : PermissionsListCall → Except String PermissionList) (srcID mail : String)
    (dst : Folder Unit) (pp : String → List PermissionList) (pages : List FileList)
    (fuel : Nat)
    (hlist : Drains (fun t => files (listCall srcID t)) FileList.NextPageToken none pages)
    (hperm : ∀ p ∈ pages, ∀ it ∈ p.Files, it.MimeType ≠ folderMimeType →
        Drains (fun t => perms (permCall it.Id t)) PermissionList.NextPageToken none
          (pp it.Id))
    (hfuel : pages.length ≤ fuel)
    (hpfuel : ∀ p ∈ pages, ∀ it ∈ p.Files, it.MimeType ≠ folderMimeType →
        (pp it.Id).length ≤ fuel) :
    ((migrateFolder ⟨statelessService files perms, srcID, mail⟩ dst fuel ()).trace.filterMap
          Event.fileReport? =
        ((pages.flatMap FileList.Files).filter
          (fun it => it.MimeType ≠ folderMimeType)).map (fun it => (it.Name, it.OwnedByMe)) ∧
      (migrateFolder ⟨statelessService files perms, srcID, mail⟩ dst fuel ()).trace.filterMap
          Event.permissionsCall? =
        ((pages.flatMap FileList.Files).filter
          (fun it => it.MimeType ≠ folderMimeType)).flatMap (fun it =>
            ((none :: (pp it.Id).map (fun q => some q.NextPageToken)).dropLast).map
              (permCall it.Id)) ∧
      ∀ c ∈ (migrateFolder ⟨statelessService files perms, srcID, mail⟩ dst fuel
          ()).trace.filterMap Event.permissionsCall?,
        ∃ it ∈ pages.flatMap FileList.Files,
          it.MimeType ≠ folderMimeType ∧ c.fileId = it.Id) ∧
    ((migrateFolder ⟨statelessService scenarioFiles scenarioPerms, "src", "a@x.com"⟩
          scenarioDst 2 ()).trace.filterMap Event.fileReport? = [("report.pdf", false)] ∧
      (migrateFolder ⟨statelessService scenarioFiles scenarioPerms, "src", "a@x.com"⟩
          scenarioDst 2 ()).trace.filterMap Event.permissionsCall? = [permCall "f1" none] ∧
      (migrateFolder ⟨statelessService scenarioFiles scenarioPerms, "src", "a@x.com"⟩
          scenarioDst 2 ()).trace.filterMap Event.visited? = ["report.pdf", "Archive"]) := by
  have hrun := migrateFolder_run files perms srcID mail dst pp pages fuel hlist
    (fun p hp it hit hnf => ⟨hperm p hp it hit hnf, hpfuel p hp it hit hnf⟩) hfuel
  have hcalls : (migrateFolder ⟨statelessService files perms, srcID, mail⟩ dst fuel
      ()).trace.filterMap Event.permissionsCall? =
      ((pages.flatMap FileList.Files).filter
        (fun it => it.MimeType ≠ folderMimeType)).flatMap (fun it =>
          ((none :: (pp it.Id).map (fun q => some q.NextPageToken)).dropLast).map
            (permCall it.Id)) := by
    rw [hrun]
    simp [List.filterMap_append, pageEvents_permissionsCall, requestTokens_eq_dropLast,
      Event.permissionsCall?, nonFolders]
  refine ⟨⟨?_, hcalls, ?_⟩, ?_⟩
  · rw [hrun]
    simp [List.filterMap_append, pageEvents_fileReport, Event.fileReport?, nonFolders]
  · intro c hc
    rw [hcalls, List.mem_flatMap] at hc
    obtain ⟨it, hit, hcit⟩ := hc
    rw [List.mem_filter] at hit
    rw [List.mem_map] at hcit
    obtain ⟨t, _, rfl⟩ := hcit
    exact ⟨it, hit.1, by simpa using hit.2, rfl⟩
  · decide

theorem migrateFolder_non_folder_filter_witness :
    (migrateFolder ⟨statelessService scenarioFiles scenarioPerms, "src", "a@x.com"⟩
        scenarioDst 3 ()).trace.filterMap Event.fileReport? =
      (([scenarioPage1, scenarioPage2].flatMap FileList.Files).filter
        (fun it => it.MimeType ≠ folderMimeType)).map (fun it => (it.Name, it.OwnedByMe)) :=
  (migrateFolder_non_folder_filter scenarioFiles scenarioPerms "src" "a@x.com" scenarioDst
    scenarioPermissionPages [scenarioPage1, scenarioPage2] 3
    (by decide) (by decide) (by decide) (by decide)).1.1

/-- C7 (listing error): when the listing pages `pre` are served, each with a non-empty
cursor, the permission listings of their files drain, and the next listing request
fails with `e`, `migrateFolder` returns exactly `e`; its events are those of the
pages `pre`, then the failed request and the log line of the failure, nothing after;
its listing requests number one more than the pages served. -/
theorem migrateFolder_listing_error (files : FilesListCall → Except String FileList)
    (perms : PermissionsListCall → Except String PermissionList) (srcID mail : String)
    (dst : Folder Unit) (pp : String → List PermissionList) (pre : List FileList)
    (tok : Option String) (e : String) (fuel : Nat)
    (hpre : Follows (fun t => files (listCall srcID t)) FileList.NextPageToken none pre tok)
    (hperm : ∀ p ∈ pre, ∀ it ∈ p.Files, it.MimeType ≠ folderMimeType →
        Drains (fun t => perms (permCall it.Id t)) PermissionList.NextPageToken none
          (pp it.Id) ∧ (pp it.Id).length ≤ fuel)
    (herr : files (listCall srcID tok) = .error e)
    (hfuel : pre.length < fuel) :
    (migrateFolder ⟨statelessService files perms, srcID, mail⟩ dst fuel ()).result =
        some (some e) ∧
      (migrateFolder ⟨statelessService files perms, srcID, mail⟩ dst fuel ()).trace =
        pageEvents srcID pp none pre ++
          [.logSearchParent ("'" ++ srcID ++ "' in parents"), .filesDo (listCall srcID tok),
            .logUnableToListFolders e] ∧
      (migrateFolder ⟨statelessService files perms, srcID, mail⟩ dst fuel ()).trace.filterMap
          Event.filesCall? =
        (none :: pre.map (fun p => some p.NextPageToken)).map (listCall srcID) ∧
      ((migrateFolder ⟨statelessService files perms, srcID, mail⟩ dst fuel ()).trace.filterMap
          Event.filesCall?).length = pre.length + 1 := by
  obtain ⟨k, rfl⟩ : ∃ k, fuel = pre.length + (k + 1) := ⟨fuel - pre.length - 1, by omega⟩
  obtain ⟨lc, np, hc, heq⟩ := migrateFolderLoop_pages files perms srcID pp
    (pre.length + (k + 1)) pre none tok (FilesList.Fields listingFields) "" (k + 1)
    (migrateFolder_initial_call srcID) hpre hperm
  have hrun : migrateFolder ⟨statelessService files perms, srcID, mail⟩ dst
      (pre.length + (k + 1)) () =
      ⟨pageEvents srcID pp none pre ++
          [.logSearchParent ("'" ++ srcID ++ "' in parents"), .filesDo (listCall srcID tok),
            .logUnableToListFolders e], (), some (some e)⟩ := by
    rw [migrateFolder]
    simp only []
    rw [heq, migrateFolderLoop_error files perms srcID _ k tok lc np e hc herr]
    rfl
  have hcalls : (pageEvents srcID pp none pre ++
      [Event.logSearchParent ("'" ++ srcID ++ "' in parents"),
        Event.filesDo (listCall srcID tok),
        Event.logUnableToListFolders e]).filterMap Event.filesCall? =
      (none :: pre.map (fun p => some p.NextPageToken)).map (listCall srcID) := by
    have h := requestTokens_append_last _ _ pre none tok hpre
    rw [← h]
    simp [List.filterMap_append, pageEvents_filesCall, Event.filesCall?]
  rw [hrun]
  refine ⟨rfl, rfl, hcalls, ?_⟩
  simp only [hcalls]
  simp

theorem migrateFolder_listing_error_witness :
    (migrateFolder ⟨statelessService failingFiles scenarioPerms, "src", "a@x.com"⟩
        scenarioDst 2 ()).result = some (some "backend error") ∧
      (migrateFolder ⟨statelessService failingFiles scenarioPerms, "src", "a@x.com"⟩
          scenarioDst 2 ()).trace.filterMap Event.filesCall? =
        [listCall "src" none, listCall "src" (some "p2")] :=
  have h := migrateFolder_listing_error failingFiles scenarioPerms "src" "a@x.com" scenarioDst
    scenarioPermissionPages [scenarioPage1] (some "p2") "backend error" 2
    (by decide) (by decide) rfl (by decide)
  ⟨h.1, h.2.2.1⟩

/-- A permission request that fails is issued again, unchanged, in every later round
of the loop: the `continue` of migrate.go 45 leaves `nextPermissionPage` as it was. -/
theorem permissionsLoop_stuck (files : FilesListCall → Except String FileList)
    (perms : PermissionsListCall → Except String PermissionList) (e : String) (np : String) :
    ∀ (fuel : Nat) (call : PermissionsListCall),
      perms (if np ≠ "" then call.PageToken np else call) = .error e →
      permissionsLoop (statelessService files perms) fuel call np () =
        (stuckEvents (if np ≠ "" then call.PageToken np else call) e fuel, (), false) := by
  intro fuel
  induction fuel with
  | zero => intro call _; rfl
  | succ f ih =>
    intro call h
    have hidem : (if np ≠ "" then
        (if np ≠ "" then call.PageToken np else call).PageToken np
        else (if np ≠ "" then call.PageToken np else call)) =
        (if np ≠ "" then call.PageToken np else call) := by
      by_cases hnp : np = "" <;> simp [hnp, PermissionsListCall.PageToken]
    have hrec := ih (if np ≠ "" then call.PageToken np else call) (by rw [hidem]; exact h)
    rw [hidem] at hrec
    rw [permissionsLoop]
    simp only [statelessService_permissionsDo, h, hrec, stuckEvents]

theorem stuckEvents_permissionsCall (c : PermissionsListCall) (e : String) (n : Nat) :
    (stuckEvents c e n).filterMap Event.permissionsCall? = List.replicate n c := by
  induction n with
  | zero => rfl
  | succ n ih => simp [stuckEvents, List.filterMap_cons, Event.permissionsCall?, ih,
      List.replicate_succ]

theorem isolation_itemsLoop (f : Nat) :
    itemsLoop (statelessService isolationFiles isolationPerms) (f + 1) isolationPage.Files () =
      ([.logFile "a.txt" true, .permissionsDo (permCall "A" none),
          .logSinglePermission (permissionOf "pa"),
          .logPermissionsForFile ⟨[permissionOf "pa"], ""⟩,
          .logFile "b.txt" true, .permissionsDo (permCall "B" none),
          .logSinglePermission (permissionOf "pb1"),
          .logPermissionsForFile ⟨[permissionOf "pb1"], "b2"⟩] ++
        stuckEvents (permCall "B" (some "b2")) "backend error" f, (), false) := by
  have hA := permissionsLoop_drains isolationFiles isolationPerms "A"
    [⟨[permissionOf "pa"], ""⟩] none ((PermissionsList "A").Fields permissionFields) "" (f + 1)
    (by decide) (by decide) (by simp)
  have hstuck := permissionsLoop_stuck isolationFiles isolationPerms "backend error" "b2" f
    (permCall "B" none) (by decide)
  have hb2 : (if ("b2" : String) ≠ "" then (permCall "B" none).PageToken "b2"
      else permCall "B" none) = permCall "B" (some "b2") := by decide
  rw [hb2] at hstuck
  have hB : permissionsLoop (statelessService isolationFiles isolationPerms) (f + 1)
      ((PermissionsList "B").Fields permissionFields) "" () =
      ([.permissionsDo (permCall "B" none), .logSinglePermission (permissionOf "pb1"),
          .logPermissionsForFile ⟨[permissionOf "pb1"], "b2"⟩] ++
        stuckEvents (permCall "B" (some "b2")) "backend error" f, (), false) := by
    have h0 : (if ("" : String) ≠ "" then
        ((PermissionsList "B").Fields permissionFields).PageToken ""
        else (PermissionsList "B").Fields permissionFields) = permCall "B" none := by decide
    have h1 : isolationPerms (permCall "B" none) = .ok ⟨[permissionOf "pb1"], "b2"⟩ := by
      decide
    rw [permissionsLoop]
    simp only [h0, statelessService_permissionsDo, h1]
    have h2 : ¬ (("b2" : String) = "") := by decide
    simp only [h2, if_false, hstuck]
    rfl
  have mA : ¬ (("text/plain" : String) = folderMimeType) := by decide
  simp only [isolationPage, itemsLoop, mA, if_false, hA, hB, if_true]
  simp [permissionEvents]

theorem isolation_run (f : Nat) :
    migrateFolder isolationSrc scenarioDst (f + 1) () =
      ⟨[.logSearchParent "'src' in parents", .filesDo (listCall "src" none),
          .logFile "a.txt" true, .permissionsDo (permCall "A" none),
          .logSinglePermission (permissionOf "pa"),
          .logPermissionsForFile ⟨[permissionOf "pa"], ""⟩,
          .logFile "b.txt" true, .permissionsDo (permCall "B" none),
          .logSinglePermission (permissionOf "pb1"),
          .logPermissionsForFile ⟨[permissionOf "pb1"], "b2"⟩] ++
        stuckEvents (permCall "B" (some "b2")) "backend error" f, (), none⟩ := by
  have h0 : (if ("" : String) ≠ "" then (FilesList.Fields listingFields).PageToken ""
      else FilesList.Fields listingFields).Q ("'" ++ "src" ++ "' in parents") =
      listCall "src" none := migrateFolder_initial_call "src"
  have h1 : isolationFiles (listCall "src" none) = .ok isolationPage := by decide
  have h2 : (("'" : String) ++ "src" ++ "' in parents") = "'src' in parents" := by decide
  rw [migrateFolder]
  simp only [isolationSrc]
  rw [migrateFolderLoop]
  simp only [h0, statelessService_filesDo, h1, isolation_itemsLoop f]
  rw [h2]
  simp

/-- C1, the code at the claim's input: the listing holds the files A, B, C; the
permission listing of B returns a first page with the cursor `b2` and fails whenever
the page for `b2` is requested. Whatever the iteration budget, `migrateFolder`
does not return and issues no permission request for C; with a budget of 4 its
permission requests are one for A, one for the first page of B, and the failed request
for `b2` three times over. On a store where that request fails only the first time,
`migrateFolder` returns nil after requesting the page for `b2` twice, and reports both
pages of B. -/
theorem migrateFolder_permission_error_retries :
    (∀ fuel, (migrateFolder isolationSrc scenarioDst fuel ()).result = none ∧
      ∀ c ∈ (migrateFolder isolationSrc scenarioDst fuel ()).trace.filterMap
          Event.permissionsCall?, c.fileId ≠ "C") ∧
    (migrateFolder isolationSrc scenarioDst 4 ()).trace.filterMap Event.permissionsCall? =
      [permCall "A" none, permCall "B" none, permCall "B" (some "b2"),
        permCall "B" (some "b2"), permCall "B" (some "b2")] ∧
    (migrateFolder flakySrc flakySrc 4 0).result = some none ∧
    (migrateFolder flakySrc flakySrc 4 0).trace.filterMap Event.permissionsCall? =
      [permCall "A" none, permCall "B" none, permCall "B" (some "b2"),
        permCall "B" (some "b2"), permCall "C" none] ∧
    (migrateFolder flakySrc flakySrc 4 0).trace.filterMap Event.permissionsReport? =
      [⟨[permissionOf "pa"], ""⟩, ⟨[permissionOf "pb1"], "b2"⟩, ⟨[permissionOf "pb2"], ""⟩,
        ⟨[permissionOf "pc"], ""⟩] := by
  refine ⟨fun fuel => ?_, by decide, by decide, by decide, by decide⟩
  cases fuel with
  | zero => exact ⟨rfl, fun c hc => by simp [migrateFolder, migrateFolderLoop] at hc⟩
  | succ f =>
    rw [isolation_run f]
    refine ⟨rfl, fun c hc => ?_⟩
    simp only [List.filterMap_append, stuckEvents_permissionsCall, List.filterMap_cons,
      Event.permissionsCall?, List.filterMap_nil, List.mem_append, List.mem_cons,
      List.mem_singleton, List.not_mem_nil, or_false, false_or, List.mem_replicate] at hc
    rcases hc with (rfl | rfl) | ⟨_, rfl⟩ <;> decide

set_option maxRecDepth 20000

/-- C10, the code against the claim: of the listing-response fields `migrateFolder`
reads, its mask `files(id,name,ownedByMe,owners)` names neither the type tag
`mimeType` of an entry nor the page-level `nextPageToken`; of the permission-response
fields it reads, its mask does not name `nextPageToken`. Behind a store that returns
only the masked fields, on the scenario of the specification `migrateFolder` requests
the first listing page only and never visits `f2`; and on a listing whose only entry is
the folder `f2` it reports `f2` as a file and requests its permissions. -/
theorem migrateFolder_field_mask_gaps :
    listingFieldsRead.filter (fun path => !maskCovers listingFields path) =
        [["files", "mimeType"], ["nextPageToken"]] ∧
      permissionFieldsRead.filter (fun path => !maskCovers permissionFields path) =
        [["nextPageToken"]] ∧
      (migrateFolder ⟨maskedService (statelessService scenarioFiles scenarioPerms), "src",
          "a@x.com"⟩ scenarioDst 4 ()).result = some none ∧
      (migrateFolder ⟨maskedService (statelessService scenarioFiles scenarioPerms), "src",
          "a@x.com"⟩ scenarioDst 4 ()).trace.filterMap Event.filesCall? =
        [listCall "src" none] ∧
      (migrateFolder ⟨maskedService (statelessService scenarioFiles scenarioPerms), "src",
          "a@x.com"⟩ scenarioDst 4 ()).trace.filterMap Event.visited? = ["report.pdf"] ∧
      (migrateFolder ⟨maskedService (statelessService folderOnlyFiles emptyPerms), "src",
          "a@x.com"⟩ scenarioDst 4 ()).trace.filterMap Event.fileReport? =
        [("Archive", false)] ∧
      (migrateFolder ⟨maskedService (statelessService folderOnlyFiles emptyPerms), "src",
          "a@x.com"⟩ scenarioDst 4 ()).trace.filterMap Event.permissionsCall? =
        [permCall "f2" none] := by
  refine ⟨by decide, by decide, by decide, by decide, by decide, by decide, by decide⟩

end MigrateFolder

end DriveMigrator
